import Mathlib

/-!
Shallow embedding of the attribution detection engine of `tempo-cli`
(`internal/detector`): data model (`types.go`), the fusion pipeline
(`detector.go`), the per-tool session readers (`claude_code.go`,
`aider.go`, `copilot.go`, the Cursor reader) and the process detector
(`process.go`), together with theorems about the embedded code.

Modelling conventions:
* Go `map[string]struct{}` sets are represented by `List String` whose
  membership is the set membership; insertion is insert-if-absent, and
  key iteration of `intersect` is order-insensitive because the Go code
  sorts its output.
* Instants are `Int` (nanoseconds, or milliseconds where the Go code
  uses `UnixMilli`); `time.Time.Before` is `<`, `After` is `>`.
* Side-effecting inputs (git invocations, directory listings, SQLite
  query results, JSON unmarshalling outcomes) are passed in as explicit
  values: `Except String α` for fallible calls, `Option α` for a
  parse that can fail, mirroring exactly where the Go code branches on
  `err != nil` or on unmarshal failure.
* Go `int64` arithmetic that can overflow is wrapped through `int64wrap`.
-/

/-- Equality decision for `Except`, needed for concrete counterexamples. -/
instance {ε α : Type} [DecidableEq ε] [DecidableEq α] : DecidableEq (Except ε α) := fun a b =>
  match a, b with
  | .error e, .error f =>
    if h : e = f then .isTrue (by rw [h]) else .isFalse (by intro hc; cases hc; exact h rfl)
  | .error _, .ok _ => .isFalse (by intro hc; cases hc)
  | .ok _, .error _ => .isFalse (by intro hc; cases hc)
  | .ok x, .ok y =>
    if h : x = y then .isTrue (by rw [h]) else .isFalse (by intro hc; cases hc; exact h rfl)

/-! ## Data model (`internal/detector/types.go`) -/

/-- Go `type Confidence string`. -/
abbrev Confidence := String

/-- The `ConfidenceHigh Confidence = "high"`. -/
def ConfidenceHigh : Confidence := "high"

/-- The `ConfidenceMedium Confidence = "medium"`. -/
def ConfidenceMedium : Confidence := "medium"

/-- Go `type Method string`. -/
abbrev Method := String

/-- The `MethodFileMatch Method = "file-match"`. -/
def MethodFileMatch : Method := "file-match"

/-- The `MethodProcess Method = "process"`. -/
def MethodProcess : Method := "process"

/-- The `MethodCoAuthorTrailer Method = "co-author-trailer"`. -/
def MethodCoAuthorTrailer : Method := "co-author-trailer"

/-- Go `type Tool string`. -/
abbrev Tool := String

/-- The `ToolClaudeCode Tool = "claude-code"`. -/
def ToolClaudeCode : Tool := "claude-code"

/-- The `ToolAider Tool = "aider"`. -/
def ToolAider : Tool := "aider"

/-- The `ToolCursor Tool = "cursor"`. -/
def ToolCursor : Tool := "cursor"

/-- The `ToolCopilot Tool = "copilot"`. -/
def ToolCopilot : Tool := "copilot"

/-- The `ToolCodex Tool = "codex"`. -/
def ToolCodex : Tool := "codex"

/-- The `Detection` struct of `types.go`: one AI tool detection for a commit.
`filesCommitted`/`aiFiles` are the Go `int` counters (always list lengths,
hence `Nat`), `tokenUsage`/`sessionDurationSec` the Go `int64` fields. -/
structure Detection where
  tool : Tool
  confidence : Confidence
  method : Method
  filesMatched : List String
  filesCommitted : Nat
  aiFiles : Nat
  model : String
  tokenUsage : Int
  sessionDurationSec : Int
deriving DecidableEq, Repr

/-- The `Attribution` struct of `types.go`: the full payload for one commit. -/
structure Attribution where
  commitSHA : String
  commitAuthor : String
  repo : String
  timestamp : String
  detections : List Detection
deriving DecidableEq, Repr

/-- The `SessionInfo` struct of `types.go`: metadata extracted from one AI tool
session; `filesWritten` models the Go `map[string]struct{}` key set. -/
structure SessionInfo where
  tool : Tool
  filesWritten : List String
  model : String
  totalTokens : Int
  sessionDurationSec : Int
deriving DecidableEq, Repr

/-! ## Go string primitives

Modelled structurally over the character list so that every definition
evaluates inside the kernel; on the ASCII data involved these agree with
Go's byte-level semantics. -/

/-- White space trimmed by Go `strings.TrimSpace` (`unicode.IsSpace`). -/
def isWhite (c : Char) : Bool :=
  c.toNat ∈ [32, 9, 10, 13, 11, 12, 133, 160]

/-- Go `strings.TrimSpace`. -/
def goTrim (s : String) : String :=
  ⟨((s.data.dropWhile isWhite).reverse.dropWhile isWhite).reverse⟩

/-- Go `strings.HasPrefix`. -/
def goStartsWith (s pre : String) : Bool := pre.data.isPrefixOf s.data

/-- Go `strings.HasSuffix`. -/
def goHasSuffix (s suf : String) : Bool := suf.data.reverse.isPrefixOf s.data.reverse

/-- Drop the first `n` characters. -/
def goDrop (s : String) (n : Nat) : String := ⟨s.data.drop n⟩

/-- Drop the last `n` characters. -/
def goDropRight (s : String) (n : Nat) : String := ⟨(s.data.reverse.drop n).reverse⟩

/-- Split a character list on a separator character (`strings.Split` with
a one-character separator; the empty input yields one empty part). -/
def splitChar (sep : Char) (cs : List Char) : List (List Char) :=
  cs.foldr (fun c acc =>
    match acc with
    | [] => if c = sep then [[], []] else [[c]]
    | a :: rest => if c = sep then [] :: a :: rest else (c :: a) :: rest) [[]]

/-- Go `strings.Split` with a one-character separator. -/
def goSplit (s : String) (sep : Char) : List String :=
  (splitChar sep s.data).map (fun cs => ⟨cs⟩)

/-- Go `strings.Join`. -/
def goJoin (sep : String) : List String → String
  | [] => ""
  | [x] => x
  | x :: xs => x ++ sep ++ goJoin sep xs

/-- ASCII lower-casing of one character. -/
def charToLower (c : Char) : Char :=
  if 65 ≤ c.toNat ∧ c.toNat ≤ 90 then Char.ofNat (c.toNat + 32) else c

/-- Go `strings.ToLower` (ASCII range). -/
def goToLower (s : String) : String := ⟨s.data.map charToLower⟩

/-! ## Set helpers (`detector.go`: `toSet`, `intersect`) -/

/-- Lexicographic `≤` on codepoint lists, the order `sort.Strings` sorts
by (bytewise on UTF-8, identical to codepoint order on ASCII paths). -/
def leB : List Char → List Char → Bool
  | [], _ => true
  | _ :: _, [] => false
  | a :: as, b :: bs =>
    if a.toNat < b.toNat then true
    else if b.toNat < a.toNat then false
    else leB as bs

/-- Go string `≤` as sorted by `sort.Strings`. -/
def strLe (a b : String) : Bool := leB a.toList b.toList

/-- The `toSet` of `detector.go`: builds the key set of a slice.  Modelled on
lists: the set of keys of `toSet(slice)` is the deduplicated slice. -/
def toSet (slice : List String) : List String := slice.dedup

/-- The `intersect` of `detector.go`: iterates the keys of the AI-file set,
keeps those in the committed set, and sorts the result with
`sort.Strings`.  Key iteration is modelled by `dedup` (a Go map holds
each key once); the final sort makes iteration order irrelevant, and any
sorting algorithm yields the same list (equal strings are identical), so
insertion sort stands in for Go's sort. -/
def intersect (aiFiles committedFiles : List String) : List String :=
  List.insertionSort (fun a b => strLe a b = true)
    ((aiFiles.dedup).filter (fun f => committedFiles.contains f))

/-! ## File-match stage of `Detect` (`detector.go` lines 55–147) -/

/-- Common body of the five per-tool file-match blocks in `Detect`: given
the already-extracted session and the optional fields the particular block
copies, intersect the session's files with the committed set and emit a
high-confidence file-match Detection iff the intersection is non-empty. -/
def fileMatchCore (tool : Tool) (committedFiles : List String) (session : SessionInfo)
    (model : String) (tokenUsage sessionDurationSec : Int) : Option Detection :=
  let matched := intersect session.filesWritten (toSet committedFiles)
  if matched.length > 0 then
    some { tool := tool, confidence := ConfidenceHigh, method := MethodFileMatch,
           filesMatched := matched, filesCommitted := committedFiles.length,
           aiFiles := matched.length, model := model, tokenUsage := tokenUsage,
           sessionDurationSec := sessionDurationSec }
  else none

/-- Claude Code block of `Detect`: used only when the reader returned
`err == nil && session != nil`; copies model, token and duration fields. -/
def claudeBlock (res : Except String (Option SessionInfo)) (committedFiles : List String) :
    Option Detection :=
  match res with
  | .ok (some session) =>
    fileMatchCore ToolClaudeCode committedFiles session session.model
      session.totalTokens session.sessionDurationSec
  | _ => none

/-- Aider block of `Detect`: copies no optional fields (zero values). -/
def aiderBlock (res : Except String (Option SessionInfo)) (committedFiles : List String) :
    Option Detection :=
  match res with
  | .ok (some session) => fileMatchCore ToolAider committedFiles session "" 0 0
  | _ => none

/-- Codex block of `Detect`: copies model, token and duration fields. -/
def codexBlock (res : Except String (Option SessionInfo)) (committedFiles : List String) :
    Option Detection :=
  match res with
  | .ok (some session) =>
    fileMatchCore ToolCodex committedFiles session session.model
      session.totalTokens session.sessionDurationSec
  | _ => none

/-- Copilot block of `Detect`: copies model and duration, but no token field. -/
def copilotBlock (res : Except String (Option SessionInfo)) (committedFiles : List String) :
    Option Detection :=
  match res with
  | .ok (some session) =>
    fileMatchCore ToolCopilot committedFiles session session.model 0
      session.sessionDurationSec
  | _ => none

/-- Cursor block of `Detect`: copies model, token and duration fields. -/
def cursorBlock (res : Except String (Option SessionInfo)) (committedFiles : List String) :
    Option Detection :=
  match res with
  | .ok (some session) =>
    fileMatchCore ToolCursor committedFiles session session.model
      session.totalTokens session.sessionDurationSec
  | _ => none

/-! ## Process presence detector (`internal/detector/process.go`) -/

/-- The `processNames` of `process.go`: executable name → tool.  A Go map
literal; represented as the association list in source order.  Go map
iteration order is unspecified, so `detectProcesses` below receives the
iteration order as an explicit argument. -/
def processNames : List (String × Tool) :=
  [("claude", ToolClaudeCode),
   ("Cursor", ToolCursor),
   ("cursor", ToolCursor),
   ("copilot-agent", ToolCopilot),
   ("github-copilot", ToolCopilot),
   ("aider", ToolAider),
   ("codex", ToolCodex)]

/-- Loop body of `detectProcesses`: iterate the (name, tool) entries in the
given order, skip a tool already seen, and record a tool whose executable
name is present in the process table (`pgrep -x name` succeeds). -/
def procLoop (running : List String) : List (String × Tool) → List Tool → List Tool
  | [], _ => []
  | (name, tool) :: rest, seen =>
    if seen.contains tool then procLoop running rest seen
    else if running.contains name then tool :: procLoop running rest (tool :: seen)
    else procLoop running rest seen

/-- The `detectProcesses` of `process.go` (non-Windows path): `running` is the
set of executable names present in the OS process table, `order` the
(randomized) iteration order of the `processNames` map. -/
def detectProcesses (running : List String) (order : List (String × Tool)) : List Tool :=
  procLoop running order []

/-! ## Trailer parser (not under `src/`) -/

/-- Tool alias matching for a trailer identity: first `processNames` entry
whose name occurs (case-insensitively) inside the identity text wins. -/
def matchTrailerIdentity (identity : String) : Option Tool :=
  processNames.findSome? (fun p =>
    if (goToLower p.1).data <:+: (goToLower identity).data then some p.2 else none)

/-- First-occurrence deduplication of the tools named by trailers. -/
def dedupFirst : List Tool → List Tool → List Tool
  | [], _ => []
  | t :: rest, seen =>
    if seen.contains t then dedupFirst rest seen
    else t :: dedupFirst rest (t :: seen)

/-- Modelled from the spec: `detectTrailers` is code of this repository
that is not under `src/` (only its caller in `detector.go` and the method
constant in `types.go` are).  Per §4.4 of the spec it scans the commit
message for structured co-authorship marker lines (`Co-Authored-By`
trailers, per the repository README), maps the embedded identity to a
known tool via the same name/alias table used by the process detector
(`processNames`), skips unrecognized identities, and produces at most one
Detection per tool at medium confidence carrying the trailer method
constant of `types.go` (`MethodCoAuthorTrailer`); remaining Detection
fields are Go zero values (`Detect` fills in `FilesCommitted` later). -/
def detectTrailers (commitMsg : String) : List Detection :=
  let tools := (goSplit commitMsg '\n').filterMap (fun line =>
    let l := goTrim line
    if goStartsWith l "Co-Authored-By:" then
      matchTrailerIdentity (goDrop l ("Co-Authored-By:".length))
    else none)
  (dedupFirst tools []).map (fun t =>
    { tool := t, confidence := ConfidenceMedium, method := MethodCoAuthorTrailer,
      filesMatched := [], filesCommitted := 0, aiFiles := 0, model := "",
      tokenUsage := 0, sessionDurationSec := 0 })

/-! ## Commit context helpers (`detector.go` lines 192–245) -/

/-- Value of a git invocation whose error is discarded (`out, _ := ...`):
on failure `cmd.Output()` yields no bytes, hence the empty string. -/
def orEmpty : Except String String → String
  | .ok s => s
  | .error _ => ""

/-- Line parsing of `getCommittedFiles`: split the trimmed diff output on
newlines, trim each name, drop blanks. -/
def parseDiffLines (output : String) : List String :=
  (goSplit (goTrim output) '\n').filterMap (fun f =>
    let f := goTrim f
    if f ≠ "" then some f else none)

/-- The `getCommittedFiles` of `detector.go`: diff `HEAD~1..HEAD`; if that git
call fails (first commit, shallow clone), diff the empty tree instead; only
failure of the fallback propagates. -/
def getCommittedFiles (diffHead diffEmptyTree : Except String String) :
    Except String (List String) :=
  match diffHead with
  | .ok output => .ok (parseDiffLines output)
  | .error _ =>
    match diffEmptyTree with
    | .ok output => .ok (parseDiffLines output)
    | .error e => .error e

/-- Replace the first occurrence of `:` by `/` (Go
`strings.Replace(remote, ":", "/", 1)`). -/
def replaceFirstColon (s : String) : String :=
  match goSplit s ':' with
  | [] => s
  | [x] => x
  | x :: rest => x ++ "/" ++ goJoin ":" rest

/-- Go `strings.TrimPrefix`: drop the prefix when present, else unchanged. -/
def goTrimLead (s pre : String) : String :=
  if goStartsWith s pre then goDrop s pre.length else s

/-- Go `strings.TrimSuffix`: drop the suffix when present, else unchanged. -/
def goTrimSuffix (s suf : String) : String :=
  if goHasSuffix s suf then goDropRight s suf.length else s

/-- The `parseRemoteURL` of `detector.go`: normalize SSH form, strip the
protocol and host, strip a trailing `.git`; empty when no host/path split
exists. -/
def parseRemoteURL (remote : String) : String :=
  let remote := if goStartsWith remote "git@" then
    replaceFirstColon (goTrimLead remote "git@") else remote
  let remote := goTrimLead remote "https://"
  let remote := goTrimLead remote "http://"
  match goSplit remote '/' with
  | [] => ""
  | [_] => ""
  | _host :: rest => goTrimSuffix (goJoin "/" rest) ".git"

/-- The `parseRepoFromRemote` of `detector.go`: empty on git failure, else
parse the trimmed `origin` URL. -/
def parseRepoFromRemote (remoteRes : Except String String) : String :=
  match remoteRes with
  | .error _ => ""
  | .ok output => parseRemoteURL (goTrim output)

/-! ## The fusion pipeline `Detect` (`detector.go` lines 31–178) -/

/-- Environment of one `Detect` call: the outcomes of every side-effecting
subcall, in the state they have for the current commit and local stores.
`procOrder` is the iteration order drawn for the `processNames` map and
`running` the set of executable names present in the process table. -/
structure DetectEnv where
  diffHead : Except String String
  diffEmptyTree : Except String String
  revParseHead : Except String String
  authorRes : Except String String
  msgRes : Except String String
  remoteRes : Except String String
  claudeRes : Except String (Option SessionInfo)
  aiderRes : Except String (Option SessionInfo)
  codexRes : Except String (Option SessionInfo)
  copilotRes : Except String (Option SessionInfo)
  cursorRes : Except String (Option SessionInfo)
  running : List String
  procOrder : List (String × Tool)
deriving DecidableEq, Repr

/-- Process-pass Detection as constructed in stage 2 of `Detect` (only
`Tool`, `Confidence`, `Method` and `FilesCommitted` set; other fields are
Go zero values). -/
def procDetection (tool : Tool) (filesCommitted : Nat) : Detection :=
  { tool := tool, confidence := ConfidenceMedium, method := MethodProcess,
    filesMatched := [], filesCommitted := filesCommitted, aiFiles := 0,
    model := "", tokenUsage := 0, sessionDurationSec := 0 }

/-- Detection list assembled by `Detect` for a non-empty committed list:
stage 2 (five file-match blocks, fixed order), stage 3 (processes not
claimed by file match), stage 4 (trailers of tools not claimed at all;
the claimed set is not extended inside the stage-4 loop, mirroring Go). -/
def detectionsFor (env : DetectEnv) (committedFiles : List String) (commitMsg : String) :
    List Detection :=
  let stage2 := (claudeBlock env.claudeRes committedFiles).toList ++
    (aiderBlock env.aiderRes committedFiles).toList ++
    (codexBlock env.codexRes committedFiles).toList ++
    (copilotBlock env.copilotRes committedFiles).toList ++
    (cursorBlock env.cursorRes committedFiles).toList
  let fileMatchDetected := stage2.map (fun d => d.tool)
  let stage3 := (detectProcesses env.running env.procOrder).filterMap (fun tool =>
    if fileMatchDetected.contains tool then none
    else some (procDetection tool committedFiles.length))
  let sofar := stage2 ++ stage3
  let alreadyDetected := sofar.map (fun d => d.tool)
  let stage4 := (detectTrailers commitMsg).filterMap (fun d =>
    if alreadyDetected.contains d.tool then none
    else some { d with filesCommitted := committedFiles.length })
  sofar ++ stage4

/-- The `Detect` of `detector.go`: `timestamp` is the formatted `time.Now()`
value (the clock is an input separate from the stores).  Hard error iff
committed-file resolution fails; `ok none` models the `nil, nil` returns. -/
def Detect (env : DetectEnv) (timestamp : String) : Except String (Option Attribution) :=
  match getCommittedFiles env.diffHead env.diffEmptyTree with
  | .error e => .error ("getting committed files: " ++ e)
  | .ok committedFiles =>
    if committedFiles.length = 0 then .ok none
    else
      let commitMsg := orEmpty env.msgRes
      let ds := detectionsFor env committedFiles commitMsg
      if ds.length = 0 then .ok none
      else .ok (some
        { commitSHA := goTrim (orEmpty env.revParseHead),
          commitAuthor := goTrim (orEmpty env.authorRes),
          repo := parseRepoFromRemote env.remoteRes,
          timestamp := timestamp,
          detections := ds })

/-! ## Session-age configuration (`detector.go` lines 13–28) -/

/-- The `defaultMaxAgeHours = 72` of `detector.go`. -/
def defaultMaxAgeHours : Int := 72

/-- Two's-complement wrap of Go `int64` arithmetic. -/
def int64wrap (x : Int) : Int := ((x + 2 ^ 63) % 2 ^ 64) - 2 ^ 63

/-- Decimal digit-string value; `none` when empty or a non-digit occurs. -/
def parseDigits (cs : List Char) : Option Nat :=
  match cs with
  | [] => none
  | _ => cs.foldl (fun acc c =>
      match acc with
      | none => none
      | some n => if c.isDigit then some (n * 10 + (c.toNat - '0'.toNat)) else none)
    (some 0)

/-- Go `strconv.Atoi` (base 10, 64-bit `int`): optional sign, non-empty
digit run, value required to fit a signed 64-bit integer (out-of-range
input yields a non-nil error, which `sessionMaxAge` treats as failure). -/
def atoi (s : String) : Option Int :=
  let signDigits : Int × List Char :=
    match s.toList with
    | '+' :: rest => (1, rest)
    | '-' :: rest => (-1, rest)
    | cs => (1, cs)
  match parseDigits signDigits.2 with
  | none => none
  | some n =>
    let v : Int := signDigits.1 * n
    if v < -(2 ^ 63) ∨ 2 ^ 63 - 1 < v then none else some v

/-- The `sessionMaxAge` of `detector.go`: the max session age in nanoseconds
(`time.Duration`), `envValue` being `os.Getenv("TEMPO_SESSION_MAX_AGE")`
(empty when unset).  `time.Duration(hours) * time.Hour` is 64-bit
multiplication, hence the wrap. -/
def sessionMaxAge (envValue : String) : Int :=
  if envValue ≠ "" then
    match atoi envValue with
    | some hours =>
      if hours > 0 then int64wrap (hours * 3600000000000)
      else defaultMaxAgeHours * 3600000000000
    | none => defaultMaxAgeHours * 3600000000000
  else defaultMaxAgeHours * 3600000000000

/-! ## Shared reader helpers -/

/-- Insert-if-absent on the list representation of a Go string set
(`m[k] = struct{}{}`). -/
def insertIfAbsent (l : List String) (x : String) : List String :=
  if l.contains x then l else l ++ [x]

/-- Directory entry as observed by `os.ReadDir`; `modTime = none` models a
failing `entry.Info()` call.  Real modification instants are positive. -/
structure DirEntry where
  name : String
  isDir : Bool
  modTime : Option Int
deriving DecidableEq, Repr

/-! ## Aider reader (`internal/detector/aider.go`) -/

/-- The `.aider.chat.history.md` file as opened: stat mod time plus its
text lines. -/
structure AiderHistoryFile where
  modTime : Int
  lines : List String
deriving DecidableEq, Repr

/-- Scanner loop of `detectAider`: a `#### ` heading line contributes its
trimmed remainder when non-empty and free of spaces. -/
def aiderCollect (lines : List String) : List String :=
  lines.foldl (fun acc line =>
    if goStartsWith line "#### " then
      let filePath := goTrim (goTrimLead line "#### ")
      if filePath ≠ "" ∧ ¬ filePath.data.contains ' ' then insertIfAbsent acc filePath
      else acc
    else acc) []

/-- Body of `detectAider` after the age gate: absent if zero files. -/
def aiderParse (f : AiderHistoryFile) : Except String (Option SessionInfo) :=
  let files := aiderCollect f.lines
  if files = [] then .ok none
  else .ok (some { tool := ToolAider, filesWritten := files, model := "",
                   totalTokens := 0, sessionDurationSec := 0 })

/-- The `detectAider` of `aider.go`: absent when the history file does not
exist or `time.Since(modTime) > maxAge`; otherwise parse the headings. -/
def detectAider (nowNs maxAgeNs : Int) (file : Option AiderHistoryFile) :
    Except String (Option SessionInfo) :=
  match file with
  | none => .ok none
  | some f => if nowNs - f.modTime > maxAgeNs then .ok none else aiderParse f

/-! ## Claude Code session selection (`internal/detector/claude_code.go`) -/

/-- The `findLatestSession` of `claude_code.go`: most recently modified
`.jsonl` entry (excluding `agent-` files and directories) whose mod time
is not strictly before `now − maxAge`; error when the directory cannot be
read or no eligible file remains.  The Go zero `bestModTime` is modelled
as `0`, real modification instants being positive. -/
def findLatestSession (sessionDir : String) (nowNs maxAgeNs : Int)
    (entries : Except String (List DirEntry)) : Except String String :=
  match entries with
  | .error e => .error e
  | .ok es =>
    let cutoff := nowNs - maxAgeNs
    let best := es.foldl (fun (best : String × Int) entry =>
      if entry.isDir ∨ ¬ goHasSuffix entry.name ".jsonl" then best
      else if goStartsWith entry.name "agent-" then best
      else match entry.modTime with
        | none => best
        | some mt =>
          if mt < cutoff then best
          else if mt > best.2 then (sessionDir ++ "/" ++ entry.name, mt) else best)
      ("", 0)
    if best.1 = "" then .error ("no recent Claude Code sessions found in " ++ sessionDir)
    else .ok best.1

/-! ## Copilot reader (`internal/detector/copilot.go`) -/

/-- The `copilotURI` of `copilot.go`. -/
structure CopilotURI where
  path : String
deriving DecidableEq, Repr

/-- The `copilotRespPart` of `copilot.go`. -/
structure CopilotRespPart where
  kind : String
  uri : Option CopilotURI
deriving DecidableEq, Repr

/-- The `copilotRequest` of `copilot.go` (`timestamp` in unix ms; the unused
`agent` field is not modelled). -/
structure CopilotRequest where
  timestamp : Int
  modelId : String
  response : List CopilotRespPart
deriving DecidableEq, Repr

/-- The `copilotModelMetadata` of `copilot.go`. -/
structure CopilotModelMetadata where
  family : String
  version : String
deriving DecidableEq, Repr

/-- The `copilotSelectedModel` of `copilot.go`. -/
structure CopilotSelectedModel where
  identifier : String
  metadata : Option CopilotModelMetadata
deriving DecidableEq, Repr

/-- The `copilotSession` of `copilot.go`. -/
structure CopilotSession where
  requests : List CopilotRequest
  selectedModel : Option CopilotSelectedModel
deriving DecidableEq, Repr

/-- The `findCopilotSessions` of `copilot.go`: `.json` entries of
`chatSessions/` not strictly older than the cutoff; an unreadable
directory yields the empty list (`nil, nil`), never an error. -/
def findCopilotSessions (workspaceDir : String) (nowNs maxAgeNs : Int)
    (entries : Except String (List DirEntry)) : List String :=
  match entries with
  | .error _ => []
  | .ok es =>
    let cutoff := nowNs - maxAgeNs
    es.filterMap (fun entry =>
      if entry.isDir ∨ ¬ goHasSuffix entry.name ".json" then none
      else match entry.modTime with
        | none => none
        | some mt =>
          if mt < cutoff then none
          else some (workspaceDir ++ "/chatSessions/" ++ entry.name))

/-- The `parseCopilotSession` of `copilot.go`: `file` is the read/unmarshal
outcome of one session JSON (`.error` = `os.ReadFile` failure, `.ok none`
= unmarshal failure).  Collects relativized `textEditGroup` paths under
the repo root, the selected model (falling back to the first per-request
model id while still empty), and the request-timestamp span. -/
def parseCopilotSession (repoRoot : String) (file : Except String (Option CopilotSession)) :
    Except String (Option SessionInfo) :=
  match file with
  | .error e => .error e
  | .ok none => .ok none
  | .ok (some session) =>
    let model0 := match session.selectedModel with
      | some sm =>
        match sm.metadata with
        | some md => if md.family ≠ "" then md.family else ""
        | none => ""
      | none => ""
    let st := session.requests.foldl
      (fun (st : Int × Int × String × List String) req =>
        let firstTs := st.1
        let lastTs := st.2.1
        let model := st.2.2.1
        let files := st.2.2.2
        let firstTs : Int := if req.timestamp > 0 ∧ (firstTs = 0 ∨ req.timestamp < firstTs)
          then req.timestamp else firstTs
        let lastTs : Int := if req.timestamp > 0 ∧ req.timestamp > lastTs
          then req.timestamp else lastTs
        let model := if model = "" ∧ req.modelId ≠ "" then req.modelId else model
        let files := req.response.foldl (fun files part =>
          if part.kind ≠ "textEditGroup" then files
          else match part.uri with
            | none => files
            | some u =>
              if u.path = "" then files
              else
                let relPath := goTrimLead u.path (repoRoot ++ "/")
                if relPath ≠ u.path then insertIfAbsent files relPath else files) files
        (firstTs, lastTs, model, files))
      ((0, 0, model0, []) : Int × Int × String × List String)
    if st.2.2.2 = [] then .ok none
    else
      let dur := if st.1 > 0 ∧ st.2.1 > 0 then (st.2.1 - st.1) / 1000 else 0
      .ok (some { tool := ToolCopilot, filesWritten := st.2.2.2, model := st.2.2.1,
                  totalTokens := 0, sessionDurationSec := dur })

/-- Loop body of the `detectCopilot` merge: a failed or absent parse
leaves the accumulator unchanged; otherwise union the file set, let a
non-empty model win, and keep the longest duration. -/
def copilotMergeStep (repoRoot : String) (merged : SessionInfo)
    (file : Except String (Option CopilotSession)) : SessionInfo :=
  match parseCopilotSession repoRoot file with
  | .error _ => merged
  | .ok none => merged
  | .ok (some session) =>
    { merged with
      filesWritten := session.filesWritten.foldl insertIfAbsent merged.filesWritten,
      model := if session.model ≠ "" then session.model else merged.model,
      sessionDurationSec :=
        if session.sessionDurationSec > merged.sessionDurationSec
        then session.sessionDurationSec else merged.sessionDurationSec }

/-- The `detectCopilot` of `copilot.go`: absent without a matching workspace
or session files; otherwise folds the per-file results — file-set union,
last non-empty model, longest duration — skipping files whose parse
failed or came back absent. -/
def detectCopilot (repoRoot : String) (workspaceFound : Bool)
    (sessions : List (Except String (Option CopilotSession))) :
    Except String (Option SessionInfo) :=
  if ¬ workspaceFound then .ok none
  else if sessions.length = 0 then .ok none
  else
    let merged := sessions.foldl (copilotMergeStep repoRoot)
      { tool := ToolCopilot, filesWritten := [], model := "", totalTokens := 0,
        sessionDurationSec := 0 }
    if merged.filesWritten = [] then .ok none else .ok (some merged)

/-! ## Cursor reader (structured on-disk store) -/

/-- The `cursorComposerHead` of the Cursor reader: one session-index entry
(epoch-ms timestamps). -/
structure CursorComposerHead where
  composerId : String
  name : String
  createdAt : Int
  lastUpdatedAt : Int
  unifiedMode : String
deriving DecidableEq, Repr

/-- The `cursorModelConfig` of the Cursor reader. -/
structure CursorModelConfig where
  modelName : String
deriving DecidableEq, Repr

/-- The `cursorComposerData` of the Cursor reader.  `usageData` holds the keys
of the Go `map[string]json.RawMessage` in the (randomized) iteration
order materialized for this run. -/
structure CursorComposerData where
  usageData : List String
  modelConfig : Option CursorModelConfig
deriving DecidableEq, Repr

/-- The `cursorToolParams` of the Cursor reader. -/
structure CursorToolParams where
  relativeWorkspacePath : String
deriving DecidableEq, Repr

/-- The `cursorToolRawArgs` of the Cursor reader. -/
structure CursorToolRawArgs where
  targetFile : String
  filePath : String
deriving DecidableEq, Repr

/-- The `cursorToolFormer` of the Cursor reader.  `params`/`rawArgs` are the
unmarshal outcomes of the raw JSON strings `paramsRaw`/`rawArgsRaw`
(`none` = unmarshal failure); the Go code gates each unmarshal on the raw
string being non-empty. -/
structure CursorToolFormer where
  name : String
  paramsRaw : String
  params : Option CursorToolParams
  rawArgsRaw : String
  rawArgs : Option CursorToolRawArgs
  status : String
  userDecision : String
deriving DecidableEq, Repr

/-- The `cursorTokenCount` of the Cursor reader. -/
structure CursorTokenCount where
  inputTokens : Int
  outputTokens : Int
deriving DecidableEq, Repr

/-- The `cursorBubble` of the Cursor reader (`type` is a Lean keyword, hence
`bubbleType`). -/
structure CursorBubble where
  bubbleType : Int
  toolFormerData : Option CursorToolFormer
  tokenCount : Option CursorTokenCount
deriving DecidableEq, Repr

/-- The `cursorWriteTools`: tool names indicating file writes/edits. -/
def cursorWriteTools (name : String) : Bool :=
  ["edit_file", "search_replace", "create_file", "write_file", "write"].contains name

/-- The `findCursorComposers` of the Cursor reader: absent store is `nil, nil`;
a query error propagates as the error return; an index value that parses
in neither encoding is `nil, nil`; otherwise retain entries strictly newer
than the cutoff with a non-empty composer id.  `index` is the decoded
session-index value (`.ok none` = no rows or unparsable in both
encodings). -/
def findCursorComposers (nowMs maxAgeMs : Int) (dbPresent : Bool)
    (index : Except String (Option (List CursorComposerHead))) :
    Except String (List CursorComposerHead) :=
  if ¬ dbPresent then .ok []
  else
    match index with
    | .error e => .error e
    | .ok none => .ok []
    | .ok (some composers) =>
      let cutoff := nowMs - maxAgeMs
      .ok (composers.filter (fun c =>
        decide (c.lastUpdatedAt > cutoff) && decide (c.composerId ≠ "")))

/-- The `extractCursorFilePath` of the Cursor reader: prefer
`params.relativeWorkspacePath`, fall back to `rawArgs.target_file` then
`rawArgs.file_path`, else empty. -/
def extractCursorFilePath (tf : CursorToolFormer) : String :=
  let fromParams : Option String :=
    if tf.paramsRaw ≠ "" then
      match tf.params with
      | some params =>
        if params.relativeWorkspacePath ≠ "" then some params.relativeWorkspacePath else none
      | none => none
    else none
  match fromParams with
  | some p => p
  | none =>
    if tf.rawArgsRaw ≠ "" then
      match tf.rawArgs with
      | some args =>
        if args.targetFile ≠ "" then args.targetFile
        else if args.filePath ≠ "" then args.filePath
        else ""
      | none => ""
    else ""

/-- Per-row body of the `parseCursorBubbles` value loop: token counters
are added for every row whose bubble unmarshals (before any write-tool,
status or decision filtering); a file path is recorded only for a
completed, not-rejected write-tool row with a non-empty extracted path. -/
def cursorBubbleStep (info : SessionInfo) (v : Option CursorBubble) : SessionInfo :=
  match v with
  | none => info
  | some bubble =>
    let info := match bubble.tokenCount with
      | some tc =>
        { info with totalTokens := info.totalTokens + tc.inputTokens + tc.outputTokens }
      | none => info
    match bubble.toolFormerData with
    | none => info
    | some tf =>
      if ¬ cursorWriteTools tf.name then info
      else if tf.status ≠ "completed" then info
      else if tf.userDecision = "rejected" then info
      else
        let filePath := extractCursorFilePath tf
        if filePath ≠ "" then
          { info with filesWritten := insertIfAbsent info.filesWritten filePath }
        else info

/-- The `parseCursorBubbles` of the Cursor reader: `rowsFor` gives, per
composer id, the outcome of the range-keyed write-tool query (each row
value an unmarshal outcome); a failing query skips that composer id.
Absent when the store or its `cursorDiskKV` table is missing
(`tableCheck` error or no rows), or when zero files are collected. -/
def parseCursorBubbles (dbPresent : Bool) (tableCheck : Except String (List String))
    (rowsFor : String → Except String (List (Option CursorBubble)))
    (composerIds : List String) : Except String (Option SessionInfo) :=
  if ¬ dbPresent then .ok none
  else
    match tableCheck with
    | .error _ => .ok none
    | .ok [] => .ok none
    | .ok (_ :: _) =>
      let info := composerIds.foldl (fun info composerId =>
        match rowsFor composerId with
        | .error _ => info
        | .ok values => values.foldl cursorBubbleStep info)
        { tool := ToolCursor, filesWritten := [], model := "", totalTokens := 0,
          sessionDurationSec := 0 }
      if info.filesWritten = [] then .ok none else .ok (some info)

/-- The `parseCursorComposerModel` of the Cursor reader: first non-empty key
of the usage map (in this run's iteration order), else the model-config
name unless empty or literally `"default"`; empty on any failure. -/
def parseCursorComposerModel (queryRes : Except String (Option CursorComposerData)) :
    String :=
  match queryRes with
  | .error _ => ""
  | .ok none => ""
  | .ok (some data) =>
    match data.usageData.find? (fun m => decide (m ≠ "")) with
    | some m => m
    | none =>
      match data.modelConfig with
      | some mc =>
        if mc.modelName ≠ "" ∧ mc.modelName ≠ "default" then mc.modelName else ""
      | none => ""

/-! ## Characterization helpers (spec-side accessors used by theorems) -/

/-- Token counters of one queried Cursor row, as summed by the value loop
of `parseCursorBubbles` (zero for unparsable rows or rows without a
`tokenCount`). -/
def cursorRowTokens (v : Option CursorBubble) : Int :=
  match v with
  | none => 0
  | some bubble =>
    match bubble.tokenCount with
    | some tc => tc.inputTokens + tc.outputTokens
    | none => 0

/-- The file path a queried Cursor row contributes, if any: the row must
parse, be a write-tool call, have status `"completed"`, a user decision
other than `"rejected"` (a missing decision decodes to `""`), and a
non-empty extracted path. -/
def cursorKeptPath (v : Option CursorBubble) : Option String :=
  match v with
  | none => none
  | some bubble =>
    match bubble.toolFormerData with
    | none => none
    | some tf =>
      if cursorWriteTools tf.name = true ∧ tf.status = "completed" ∧
          tf.userDecision ≠ "rejected" ∧ extractCursorFilePath tf ≠ "" then
        some (extractCursorFilePath tf)
      else none

/-- All rows the `parseCursorBubbles` loop processes, in order: for each
composer id the rows of its query, skipping ids whose query failed. -/
def cursorQueryRows (rowsFor : String → Except String (List (Option CursorBubble))) :
    List String → List (Option CursorBubble)
  | [] => []
  | cid :: rest =>
    (match rowsFor cid with
     | .ok values => values
     | .error _ => []) ++ cursorQueryRows rowsFor rest

/-- The per-file results `detectCopilot` actually merges: parse outcomes
that are present (not read-failed, not malformed, non-empty). -/
def copilotInfos (repoRoot : String)
    (sessions : List (Except String (Option CopilotSession))) : List SessionInfo :=
  sessions.filterMap (fun file =>
    match parseCopilotSession repoRoot file with
    | .ok (some s) => some s
    | _ => none)

/-- Last non-empty model across per-file results (spec's merge rule). -/
def lastNonEmptyModel (infos : List SessionInfo) : String :=
  infos.foldl (fun m s => if s.model ≠ "" then s.model else m) ""

/-- Longest duration across per-file results (spec's merge rule). -/
def maxDuration (infos : List SessionInfo) : Int :=
  infos.foldl (fun dur s => if s.sessionDurationSec > dur then s.sessionDurationSec else dur) 0

/-- Blank out the timestamp of a `Detect` result, to compare two
invocations "apart from the timestamp field". -/
def stripTimestamp : Except String (Option Attribution) → Except String (Option Attribution)
  | .ok (some a) => .ok (some { a with timestamp := "" })
  | r => r

/-! ## The documented JSON shape (`types.go` struct tags) -/

/-- JSON values as produced by `encoding/json` for the `Attribution`
struct (null/bool never occur in this shape). -/
inductive Json where
  | str (s : String)
  | num (n : Int)
  | arr (items : List Json)
  | obj (fields : List (String × Json))

/-- Field lookup in a JSON object (`encoding/json` matches by tag name). -/
def jGet : List (String × Json) → String → Option Json
  | [], _ => none
  | (k, v) :: rest, key => if k = key then some v else jGet rest key

/-- Fields of the serialized `Detection`, in struct order; the four
`omitempty` fields are omitted exactly when zero-valued. -/
def encodeDetectionFields (d : Detection) : List (String × Json) :=
  [("tool", Json.str d.tool), ("confidence", Json.str d.confidence),
   ("method", Json.str d.method)] ++
  (if d.filesMatched.isEmpty then [] else
    [("files_matched", Json.arr (d.filesMatched.map Json.str))]) ++
  [("files_committed", Json.num d.filesCommitted), ("ai_files", Json.num d.aiFiles)] ++
  (if d.model = "" then [] else [("model", Json.str d.model)]) ++
  (if d.tokenUsage = 0 then [] else [("token_usage", Json.num d.tokenUsage)]) ++
  (if d.sessionDurationSec = 0 then [] else
    [("session_duration_sec", Json.num d.sessionDurationSec)])

/-- Serialize one `Detection`. -/
def encodeDetection (d : Detection) : Json := Json.obj (encodeDetectionFields d)

/-- Decode a JSON array of strings. -/
def jsonStrings : List Json → Option (List String)
  | [] => some []
  | Json.str s :: rest => (jsonStrings rest).map (fun xs => s :: xs)
  | _ :: _ => none

/-- Deserialize one `Detection`: absent optional fields yield the Go zero
values, exactly as `encoding/json` leaves missing fields untouched. -/
def decodeDetection (j : Json) : Option Detection :=
  match j with
  | Json.obj fields =>
    match jGet fields "tool", jGet fields "confidence", jGet fields "method" with
    | some (Json.str tool), some (Json.str confidence), some (Json.str method) =>
      match jGet fields "files_committed", jGet fields "ai_files" with
      | some (Json.num fc), some (Json.num ai) =>
        let fm : Option (List String) :=
          match jGet fields "files_matched" with
          | none => some []
          | some (Json.arr xs) => jsonStrings xs
          | some _ => none
        let model : Option String :=
          match jGet fields "model" with
          | none => some ""
          | some (Json.str m) => some m
          | some _ => none
        let tk : Option Int :=
          match jGet fields "token_usage" with
          | none => some 0
          | some (Json.num n) => some n
          | some _ => none
        let dur : Option Int :=
          match jGet fields "session_duration_sec" with
          | none => some 0
          | some (Json.num n) => some n
          | some _ => none
        match fm, model, tk, dur with
        | some fm, some model, some tk, some dur =>
          some { tool := tool, confidence := confidence, method := method,
                 filesMatched := fm, filesCommitted := fc.toNat, aiFiles := ai.toNat,
                 model := model, tokenUsage := tk, sessionDurationSec := dur }
        | _, _, _, _ => none
      | _, _ => none
    | _, _, _ => none
  | _ => none

/-- Serialize an `Attribution` to the documented shape. -/
def encodeAttribution (a : Attribution) : Json :=
  Json.obj [("commit_sha", Json.str a.commitSHA),
            ("commit_author", Json.str a.commitAuthor),
            ("repo", Json.str a.repo), ("timestamp", Json.str a.timestamp),
            ("detections", Json.arr (a.detections.map encodeDetection))]

/-- Decode a JSON array of Detections. -/
def decodeDetections : List Json → Option (List Detection)
  | [] => some []
  | j :: rest =>
    match decodeDetection j, decodeDetections rest with
    | some d, some ds => some (d :: ds)
    | _, _ => none

/-- Deserialize an `Attribution`. -/
def decodeAttribution (j : Json) : Option Attribution :=
  match j with
  | Json.obj fields =>
    match jGet fields "commit_sha", jGet fields "commit_author", jGet fields "repo",
      jGet fields "timestamp", jGet fields "detections" with
    | some (Json.str sha), some (Json.str author), some (Json.str repo),
      some (Json.str ts), some (Json.arr ds) =>
      match decodeDetections ds with
      | some dets =>
        some { commitSHA := sha, commitAuthor := author, repo := repo,
               timestamp := ts, detections := dets }
      | none => none
    | _, _, _, _, _ => none
  | _ => none

/-- Concrete Cursor row: accepted completed write of `a.go`, 100 input
tokens. -/
def cursorRowAccepted : Option CursorBubble :=
  some { bubbleType := 2,
         toolFormerData := some
           { name := "write_file", paramsRaw := "params",
             params := some { relativeWorkspacePath := "a.go" }, rawArgsRaw := "",
             rawArgs := none, status := "completed", userDecision := "accepted" },
         tokenCount := some { inputTokens := 100, outputTokens := 0 } }

/-- Concrete Cursor row: rejected completed write of `b.go`, 7 input
tokens. -/
def cursorRowRejected : Option CursorBubble :=
  some { bubbleType := 2,
         toolFormerData := some
           { name := "write_file", paramsRaw := "params",
             params := some { relativeWorkspacePath := "b.go" }, rawArgsRaw := "",
             rawArgs := none, status := "completed", userDecision := "rejected" },
         tokenCount := some { inputTokens := 7, outputTokens := 0 } }

/-- Concrete Cursor row: completed write of `a.go` with a missing user
decision (empty string) and 5+3 tokens. -/
def cursorRowNoDecision : Option CursorBubble :=
  some { bubbleType := 2,
         toolFormerData := some
           { name := "write_file", paramsRaw := "params",
             params := some { relativeWorkspacePath := "a.go" }, rawArgsRaw := "",
             rawArgs := none, status := "completed", userDecision := "" },
         tokenCount := some { inputTokens := 5, outputTokens := 3 } }

/-- Concrete Copilot session file: one agent request editing `a.go` under
repo root `"r"`, model id `m1`. -/
def copilotSessionFix : Except String (Option CopilotSession) :=
  .ok (some
    { requests :=
        [{ timestamp := 1000, modelId := "m1",
           response := [{ kind := "textEditGroup", uri := some { path := "r/a.go" } }] }],
      selectedModel := none })

/-- Concrete environment whose committed-file resolution fails in both
git invocations. -/
def c3EnvError : DetectEnv :=
  { diffHead := .error "x", diffEmptyTree := .error "boom", revParseHead := .ok "",
    authorRes := .ok "", msgRes := .ok "", remoteRes := .ok "", claudeRes := .ok none,
    aiderRes := .ok none, codexRes := .ok none, copilotRes := .ok none,
    cursorRes := .ok none, running := [], procOrder := processNames }

/-- Concrete environment of a no-change commit (empty diff), with every
reader failing — reader failures must not surface. -/
def c3EnvQuiet : DetectEnv :=
  { diffHead := .ok "", diffEmptyTree := .ok "", revParseHead := .ok "",
    authorRes := .ok "", msgRes := .ok "", remoteRes := .ok "",
    claudeRes := .error "corrupt", aiderRes := .error "corrupt",
    codexRes := .error "corrupt", copilotRes := .error "corrupt",
    cursorRes := .error "corrupt", running := [], procOrder := processNames }

/-- Concrete environment with one committed file and one running tool. -/
def c2EnvProc : DetectEnv :=
  { diffHead := .ok "a.go", diffEmptyTree := .ok "", revParseHead := .ok "",
    authorRes := .ok "", msgRes := .ok "", remoteRes := .ok "", claudeRes := .ok none,
    aiderRes := .ok none, codexRes := .ok none, copilotRes := .ok none,
    cursorRes := .ok none, running := ["aider"], procOrder := processNames }

/-- Concrete environment with two running tools, process table iterated
in declaration order. -/
def c7EnvA : DetectEnv :=
  { diffHead := .ok "a.go", diffEmptyTree := .ok "", revParseHead := .ok "",
    authorRes := .ok "", msgRes := .ok "", remoteRes := .ok "", claudeRes := .ok none,
    aiderRes := .ok none, codexRes := .ok none, copilotRes := .ok none,
    cursorRes := .ok none, running := ["aider", "codex"], procOrder := processNames }

/-- Same environment — same commit, same stores, same process table — with
the process-name map iterated in the reverse order. -/
def c7EnvB : DetectEnv := { c7EnvA with procOrder := processNames.reverse }

/-! ## Order lemmas for the string sort -/

/-- Totality of the bytewise `≤`. -/
theorem leB_total : ∀ as bs : List Char, leB as bs = true ∨ leB bs as = true := by
  intro as
  induction as with
  | nil => intro bs; left; cases bs <;> rfl
  | cons a as ih =>
    intro bs
    cases bs with
    | nil => right; rfl
    | cons b bs =>
      rcases Nat.lt_trichotomy a.toNat b.toNat with h | h | h
      · left; simp [leB, h]
      · rcases ih bs with h2 | h2
        · left; simp [leB, h, h2]
        · right; simp [leB, h, h2]
      · right; simp [leB, h, Nat.lt_asymm h]

/-- Transitivity of the bytewise `≤`. -/
theorem leB_trans : ∀ as bs cs : List Char,
    leB as bs = true → leB bs cs = true → leB as cs = true := by
  intro as
  induction as with
  | nil => intro bs cs _ _; cases cs <;> rfl
  | cons a as ih =>
    intro bs cs hab hbc
    cases bs with
    | nil => simp [leB] at hab
    | cons b bs =>
      cases cs with
      | nil => simp [leB] at hbc
      | cons c cs =>
        simp only [leB] at hab hbc ⊢
        rcases Nat.lt_trichotomy a.toNat b.toNat with h1 | h1 | h1
        · rcases Nat.lt_trichotomy b.toNat c.toNat with h2 | h2 | h2
          · simp [Nat.lt_trans h1 h2]
          · simp [h2 ▸ h1]
          · simp [h2, Nat.lt_asymm h2] at hbc
        · rcases Nat.lt_trichotomy b.toNat c.toNat with h2 | h2 | h2
          · simp [h1 ▸ h2]
          · simp only [h1, h2] at *
            simp only [lt_irrefl, if_false, if_neg (lt_irrefl _)] at hab hbc ⊢
            exact ih bs cs hab hbc
          · simp [h2, Nat.lt_asymm h2] at hbc
        · simp [h1, Nat.lt_asymm h1] at hab

instance : IsTotal String (fun a b => strLe a b = true) :=
  ⟨fun a b => leB_total a.toList b.toList⟩

instance : IsTrans String (fun a b => strLe a b = true) :=
  ⟨fun _ _ _ h1 h2 => leB_trans _ _ _ h1 h2⟩

/-! ## Characterization of `intersect` -/

/-- Membership in `intersect`: exactly the strings in both sets. -/
theorem mem_intersect {f : String} {aiFiles committedSet : List String} :
    f ∈ intersect aiFiles committedSet ↔ f ∈ aiFiles ∧ f ∈ committedSet := by
  simp [intersect, List.mem_insertionSort, List.mem_filter, List.mem_dedup, List.contains,
    List.elem_iff]

/-- The `intersect` output has no duplicates. -/
theorem nodup_intersect (aiFiles committedSet : List String) :
    (intersect aiFiles committedSet).Nodup :=
  (List.perm_insertionSort _ _).nodup_iff.mpr
    (List.Nodup.filter _ (List.nodup_dedup aiFiles))

/-- The `intersect` output is ascending in the sort order of `sort.Strings`. -/
theorem sorted_intersect (aiFiles committedSet : List String) :
    (intersect aiFiles committedSet).Pairwise (fun a b => strLe a b = true) :=
  List.sorted_insertionSort _ _

/-- The `intersect` output is non-empty exactly when the two sets meet. -/
theorem intersect_ne_nil_iff {aiFiles committedSet : List String} :
    intersect aiFiles committedSet ≠ [] ↔ ∃ f, f ∈ aiFiles ∧ f ∈ committedSet := by
  constructor
  · intro h
    match hm : intersect aiFiles committedSet with
    | [] => exact absurd hm h
    | f :: _ => exact ⟨f, mem_intersect.mp (hm ▸ List.mem_cons_self f _)⟩
  · rintro ⟨f, hf1, hf2⟩ hempty
    have hmem : f ∈ intersect aiFiles committedSet := mem_intersect.mpr ⟨hf1, hf2⟩
    rw [hempty] at hmem
    exact absurd hmem (List.not_mem_nil f)

/-- A file-match block fires exactly when the intersection is non-empty. -/
theorem fileMatchCore_isSome_iff (tool : Tool) (committed : List String) (s : SessionInfo)
    (model : String) (tk dur : Int) :
    (fileMatchCore tool committed s model tk dur).isSome = true ↔
    intersect s.filesWritten (toSet committed) ≠ [] := by
  simp only [fileMatchCore]
  by_cases h : 0 < (intersect s.filesWritten (toSet committed)).length
  · simpa [h] using List.length_pos.mp h
  · have hnil : intersect s.filesWritten (toSet committed) = [] := by
      cases hm : intersect s.filesWritten (toSet committed) with
      | nil => rfl
      | cons x xs => rw [hm] at h; simp at h
    simp [h, hnil]

/-- The Detection a file-match block emits, explicitly. -/
theorem fileMatchCore_eq_some (tool : Tool) (committed : List String) (s : SessionInfo)
    (model : String) (tk dur : Int) (d : Detection)
    (h : fileMatchCore tool committed s model tk dur = some d) :
    d = { tool := tool, confidence := ConfidenceHigh, method := MethodFileMatch,
          filesMatched := intersect s.filesWritten (toSet committed),
          filesCommitted := committed.length,
          aiFiles := (intersect s.filesWritten (toSet committed)).length,
          model := model, tokenUsage := tk, sessionDurationSec := dur } := by
  simp only [fileMatchCore] at h
  by_cases hl : 0 < (intersect s.filesWritten (toSet committed)).length
  · rw [if_pos hl] at h
    exact (Option.some.inj h).symm
  · rw [if_neg hl] at h
    cases h

/-- C1: for every committed-file set `C` and every session reader returning an
AI-written file set `W`, the file-match pass emits a Detection for that tool
iff `C ∩ W ≠ ∅`; the Detection's `files_matched` is the ascending-sorted
deduplicated intersection, `ai_files = |C ∩ W|`, `files_committed = |C|`,
confidence high, method file-match.  The five reader blocks are instances of
the common core, and Scenario A instantiates as the spec states. -/
theorem c1_fileMatch_spec (committed : List String) (hC : committed.Nodup)
    (s : SessionInfo) (tool : Tool) (model : String) (tk dur : Int) :
    ((fileMatchCore tool committed s model tk dur).isSome = true ↔
      ∃ f, f ∈ s.filesWritten ∧ f ∈ committed) ∧
    (∀ d, fileMatchCore tool committed s model tk dur = some d →
      d.tool = tool ∧ d.confidence = ConfidenceHigh ∧ d.method = MethodFileMatch ∧
      (∀ f, f ∈ d.filesMatched ↔ f ∈ s.filesWritten ∧ f ∈ committed) ∧
      d.filesMatched.Pairwise (fun a b => strLe a b = true) ∧
      d.filesMatched.Nodup ∧
      d.aiFiles = d.filesMatched.length ∧
      d.filesCommitted = committed.length ∧
      d.filesCommitted = committed.dedup.length) ∧
    claudeBlock (.ok (some s)) committed =
      fileMatchCore ToolClaudeCode committed s s.model s.totalTokens s.sessionDurationSec ∧
    aiderBlock (.ok (some s)) committed = fileMatchCore ToolAider committed s "" 0 0 ∧
    codexBlock (.ok (some s)) committed =
      fileMatchCore ToolCodex committed s s.model s.totalTokens s.sessionDurationSec ∧
    copilotBlock (.ok (some s)) committed =
      fileMatchCore ToolCopilot committed s s.model 0 s.sessionDurationSec ∧
    cursorBlock (.ok (some s)) committed =
      fileMatchCore ToolCursor committed s s.model s.totalTokens s.sessionDurationSec ∧
    claudeBlock (.ok (some
      { tool := ToolClaudeCode,
        filesWritten := ["src/main.go", "tests/main_test.go", "docs/extra.md"],
        model := "", totalTokens := 0, sessionDurationSec := 0 }))
      ["src/main.go", "tests/main_test.go", "README.md"] =
      some { tool := ToolClaudeCode, confidence := ConfidenceHigh,
             method := MethodFileMatch,
             filesMatched := ["src/main.go", "tests/main_test.go"],
             filesCommitted := 3, aiFiles := 2, model := "", tokenUsage := 0,
             sessionDurationSec := 0 } := by
  refine ⟨?_, ?_, rfl, rfl, rfl, rfl, rfl, by decide⟩
  · rw [fileMatchCore_isSome_iff, intersect_ne_nil_iff]
    constructor
    · rintro ⟨f, h1, h2⟩
      exact ⟨f, h1, List.mem_dedup.mp h2⟩
    · rintro ⟨f, h1, h2⟩
      exact ⟨f, h1, List.mem_dedup.mpr h2⟩
  · intro d hd
    have hde := fileMatchCore_eq_some tool committed s model tk dur d hd
    subst hde
    refine ⟨rfl, rfl, rfl, ?_, sorted_intersect _ _, nodup_intersect _ _, rfl, rfl, ?_⟩
    · intro f
      rw [mem_intersect]
      simp [toSet, List.mem_dedup]
    · simp [List.dedup_eq_self.mpr hC]

/-- Witness for C1 at a concrete input. -/
theorem c1_fileMatch_spec_witness :
    (["a.go"] : List String).Nodup ∧
    (fileMatchCore ToolClaudeCode ["a.go"]
      { tool := ToolClaudeCode, filesWritten := ["a.go"], model := "", totalTokens := 0,
        sessionDurationSec := 0 } "" 0 0).isSome = true := by
  have h := c1_fileMatch_spec ["a.go"] (by decide)
    { tool := ToolClaudeCode, filesWritten := ["a.go"], model := "", totalTokens := 0,
      sessionDurationSec := 0 } ToolClaudeCode "" 0 0
  exact ⟨by decide, h.1.mpr ⟨"a.go", by decide, by decide⟩⟩

/-! ## C6: trailer-pass Detections (method constant) -/

/-- C6 counterexample: a commit message carrying a recognized co-author
trailer makes the trailer pass emit at least one Detection, and no emitted
Detection has method equal to the literal `"trailer"` — the code's
constant is `"co-author-trailer"` (`types.go`). -/
theorem c6_counterexample :
    detectTrailers "Co-Authored-By: Claude <noreply@anthropic.com>" ≠ [] ∧
    (detectTrailers "Co-Authored-By: Claude <noreply@anthropic.com>").all
      (fun d => decide (d.method ≠ "trailer")) = true :=
  ⟨by decide, by decide⟩

/-- C6 (amended): every Detection produced by the trailer pass has
confidence medium and method equal to the `types.go` trailer constant,
the string `"co-author-trailer"` (not the spec's label `"trailer"`). -/
theorem c6_trailer_method (msg : String) (d : Detection) (hd : d ∈ detectTrailers msg) :
    d.confidence = ConfidenceMedium ∧ d.method = MethodCoAuthorTrailer ∧
    d.method = "co-author-trailer" := by
  simp only [detectTrailers, List.mem_map] at hd
  obtain ⟨t, _, rfl⟩ := hd
  exact ⟨rfl, rfl, rfl⟩

/-- Witness for C6 at a concrete trailer. -/
theorem c6_trailer_method_witness :
    ({ tool := ToolClaudeCode, confidence := ConfidenceMedium,
       method := MethodCoAuthorTrailer, filesMatched := [], filesCommitted := 0,
       aiFiles := 0, model := "", tokenUsage := 0,
       sessionDurationSec := 0 } : Detection).confidence = ConfidenceMedium ∧
    ({ tool := ToolClaudeCode, confidence := ConfidenceMedium,
       method := MethodCoAuthorTrailer, filesMatched := [], filesCommitted := 0,
       aiFiles := 0, model := "", tokenUsage := 0,
       sessionDurationSec := 0 } : Detection).method = MethodCoAuthorTrailer ∧
    ({ tool := ToolClaudeCode, confidence := ConfidenceMedium,
       method := MethodCoAuthorTrailer, filesMatched := [], filesCommitted := 0,
       aiFiles := 0, model := "", tokenUsage := 0,
       sessionDurationSec := 0 } : Detection).method = "co-author-trailer" :=
  c6_trailer_method "Co-Authored-By: Claude <noreply@anthropic.com>"
    { tool := ToolClaudeCode, confidence := ConfidenceMedium,
      method := MethodCoAuthorTrailer, filesMatched := [], filesCommitted := 0,
      aiFiles := 0, model := "", tokenUsage := 0, sessionDurationSec := 0 }
    (by decide)

/-! ## C10: session max age -/

/-- The `int64wrap` is the identity inside the `int64` range. -/
theorem int64wrap_eq_self {x : Int} (h1 : -(2 ^ 63) ≤ x) (h2 : x ≤ 2 ^ 63 - 1) :
    int64wrap x = x := by
  unfold int64wrap
  have h3 : (0 : Int) ≤ x + 2 ^ 63 := by linarith
  have h4 : x + 2 ^ 63 < 2 ^ 64 := by norm_num; linarith
  rw [Int.emod_eq_of_lt h3 h4]
  ring

/-- C10 counterexample: the env value `"3000000"` is a positive decimal
integer, yet the computed max age is not 3000000 hours — the 64-bit
duration multiplication overflows and wraps negative. -/
theorem c10_counterexample :
    atoi "3000000" = some 3000000 ∧ (0 : Int) < 3000000 ∧
    sessionMaxAge "3000000" = -7646744073709551616 ∧
    sessionMaxAge "3000000" ≠ 3000000 * 3600000000000 :=
  ⟨by decide, by decide, by decide, by decide⟩

/-- C10 (amended): an unset/empty value, a value `strconv.Atoi` rejects
(non-decimal or outside `int64`), or a non-positive value leaves the
default of 72 hours; a positive decimal integer `n` yields exactly `n`
hours provided `n` hours fits a 64-bit nanosecond count (otherwise the
multiplication wraps, see the counterexample). -/
theorem c10_sessionMaxAge_spec (s : String) (n : Int) :
    (s = "" → sessionMaxAge s = 72 * 3600000000000) ∧
    (atoi s = none → sessionMaxAge s = 72 * 3600000000000) ∧
    (atoi s = some n → n ≤ 0 → sessionMaxAge s = 72 * 3600000000000) ∧
    (atoi s = some n → 0 < n → n * 3600000000000 ≤ 2 ^ 63 - 1 →
      sessionMaxAge s = n * 3600000000000) := by
  refine ⟨?_, ?_, ?_, ?_⟩
  · intro hs
    simp [sessionMaxAge, hs, defaultMaxAgeHours]
  · intro ha
    by_cases hs : s = ""
    · simp [sessionMaxAge, hs, defaultMaxAgeHours]
    · simp [sessionMaxAge, hs, ha, defaultMaxAgeHours]
  · intro ha hn
    by_cases hs : s = ""
    · simp [sessionMaxAge, hs, defaultMaxAgeHours]
    · have hng : ¬ n > 0 := by omega
      simp [sessionMaxAge, hs, ha, hng, defaultMaxAgeHours]
  · intro ha hn hbound
    have hs : s ≠ "" := by
      intro he
      rw [he] at ha
      simp [atoi, parseDigits] at ha
    have hlo : -(2 ^ 63 : Int) ≤ n * 3600000000000 := by
      have : (0 : Int) < n * 3600000000000 := by positivity
      linarith
    simp [sessionMaxAge, hs, ha, hn, int64wrap_eq_self hlo hbound]

/-- Witness for C10 at concrete env values. -/
theorem c10_sessionMaxAge_spec_witness :
    sessionMaxAge "5" = 5 * 3600000000000 ∧ sessionMaxAge "" = 72 * 3600000000000 :=
  ⟨(c10_sessionMaxAge_spec "5" 5).2.2.2 (by decide) (by decide) (by decide),
   (c10_sessionMaxAge_spec "" 5).1 rfl⟩

/-! ## C5: age-cutoff boundaries of the four readers -/

/-- A slash-joined path is never the empty string. -/
theorem concat_path_ne_empty (dir sep name : String) (hsep : sep.length = 1) :
    dir ++ sep ++ name ≠ "" := by
  intro h
  have hl := congrArg String.length h
  simp [String.length_append, hsep] at hl

/-- C5 counterexample: in the structured-store (Cursor) reader a session
whose last update lies exactly at the cutoff instant (`now − maxAge`) is
excluded (`lastUpdatedAt > cutoff` is strict), contradicting the claim
that every reader includes an artifact exactly at the cutoff. -/
theorem c5_counterexample :
    (999000 : Int) = 1000000 - 1000 ∧
    findCursorComposers 1000000 1000 true
      (.ok (some [{ composerId := "c1", name := "s", createdAt := 0,
                    lastUpdatedAt := 999000, unifiedMode := "agent" }])) = .ok [] :=
  ⟨by decide, by decide⟩

/-- C5 (amended): the log-stream (`findLatestSession`), chat-session-JSON
(`findCopilotSessions`) and flat-transcript (`detectAider`) readers include
an artifact whose modification instant is exactly `now − maxAge` and
exclude only strictly older ones; the structured-store reader
(`findCursorComposers`) keeps exactly the sessions strictly newer than the
cutoff, so one exactly at the cutoff is excluded. -/
theorem c5_age_boundary (sessionDir workspaceDir name : String) (nowNs maxAgeNs : Int)
    (f : AiderHistoryFile) (nowMs maxAgeMs : Int) (cs r : List CursorComposerHead)
    (c : CursorComposerHead) :
    (goHasSuffix name ".jsonl" = true → goStartsWith name "agent-" = false →
      0 < nowNs - maxAgeNs →
      findLatestSession sessionDir nowNs maxAgeNs
        (.ok [{ name := name, isDir := false, modTime := some (nowNs - maxAgeNs) }]) =
        .ok (sessionDir ++ "/" ++ name)) ∧
    (goHasSuffix name ".json" = true →
      findCopilotSessions workspaceDir nowNs maxAgeNs
        (.ok [{ name := name, isDir := false, modTime := some (nowNs - maxAgeNs) }]) =
        [workspaceDir ++ "/chatSessions/" ++ name]) ∧
    (f.modTime = nowNs - maxAgeNs → detectAider nowNs maxAgeNs (some f) = aiderParse f) ∧
    (findCursorComposers nowMs maxAgeMs true (.ok (some cs)) = .ok r → c ∈ r →
      c.lastUpdatedAt > nowMs - maxAgeMs) ∧
    (c ∈ cs → c.lastUpdatedAt > nowMs - maxAgeMs → c.composerId ≠ "" →
      findCursorComposers nowMs maxAgeMs true (.ok (some cs)) = .ok r → c ∈ r) := by
  refine ⟨?_, ?_, ?_, ?_, ?_⟩
  · intro h1 h2 h3
    simp [findLatestSession, h1, h2, h3, lt_irrefl,
      concat_path_ne_empty sessionDir "/" name rfl]
  · intro h1
    simp [findCopilotSessions, h1, lt_irrefl]
  · intro hmt
    simp [detectAider, hmt, sub_sub_cancel]
  · intro hr hc
    simp only [findCursorComposers, Bool.not_true, not_true_eq_false] at hr
    rw [if_neg not_false] at hr
    rw [← Except.ok.inj hr] at hc
    rcases List.mem_filter.mp hc with ⟨_, hpred⟩
    simp only [Bool.and_eq_true, decide_eq_true_eq] at hpred
    exact hpred.1
  · intro hc hgt hid hr
    simp only [findCursorComposers, Bool.not_true, not_true_eq_false] at hr
    rw [if_neg not_false] at hr
    rw [← Except.ok.inj hr]
    exact List.mem_filter.mpr ⟨hc, by simp [hgt, hid]⟩

/-- Witness for C5 at concrete boundary instants. -/
theorem c5_age_boundary_witness :
    findLatestSession "d" 2000 1000
      (.ok [{ name := "s.jsonl", isDir := false, modTime := some (2000 - 1000) }]) =
      .ok ("d" ++ "/" ++ "s.jsonl") ∧
    findCopilotSessions "w" 2000 1000
      (.ok [{ name := "s.json", isDir := false, modTime := some (2000 - 1000) }]) =
      ["w" ++ "/chatSessions/" ++ "s.json"] ∧
    detectAider 2000 1000 (some { modTime := 1000, lines := ["#### a.go"] }) =
      aiderParse { modTime := 1000, lines := ["#### a.go"] } ∧
    ({ composerId := "c1", name := "s", createdAt := 0, lastUpdatedAt := 1500,
       unifiedMode := "agent" } : CursorComposerHead) ∈
      [({ composerId := "c1", name := "s", createdAt := 0, lastUpdatedAt := 1500,
          unifiedMode := "agent" } : CursorComposerHead)] := by
  have h1 := c5_age_boundary "d" "w" "s.jsonl" 2000 1000
    { modTime := 1000, lines := ["#### a.go"] } 2000 1000 [] [] 
    { composerId := "c1", name := "s", createdAt := 0, lastUpdatedAt := 1500,
      unifiedMode := "agent" }
  have h2 := c5_age_boundary "d" "w" "s.json" 2000 1000
    { modTime := 1000, lines := ["#### a.go"] } 2000 1000
    [{ composerId := "c1", name := "s", createdAt := 0, lastUpdatedAt := 1500,
       unifiedMode := "agent" }]
    [{ composerId := "c1", name := "s", createdAt := 0, lastUpdatedAt := 1500,
       unifiedMode := "agent" }]
    { composerId := "c1", name := "s", createdAt := 0, lastUpdatedAt := 1500,
      unifiedMode := "agent" }
  refine ⟨h1.1 (by decide) (by decide) (by decide), h2.2.1 (by decide),
    h1.2.2.1 rfl, ?_⟩
  exact h2.2.2.2.2 (by decide) (by decide) (by decide) (by decide)

/-! ## C9: JSON serialization round trip -/

/-- Decoding a string array built from strings recovers them. -/
theorem jsonStrings_map_str (xs : List String) : jsonStrings (xs.map Json.str) = some xs := by
  induction xs with
  | nil => rfl
  | cons x xs ih => simp [jsonStrings, ih]

/-- Per-Detection round trip. -/
theorem decode_encode_detection (d : Detection) :
    decodeDetection (encodeDetection d) = some d := by
  rcases d with ⟨tool, confidence, method, fm, fc, ai, model, tk, dur⟩
  simp only [encodeDetection, encodeDetectionFields]
  by_cases h1 : fm.isEmpty <;> by_cases h2 : model = "" <;>
    by_cases h3 : tk = 0 <;> by_cases h4 : dur = 0 <;>
    simp_all [decodeDetection, jGet, jsonStrings_map_str, List.isEmpty_iff]

/-- Round trip for Detection lists. -/
theorem decode_encode_detections (ds : List Detection) :
    decodeDetections (ds.map encodeDetection) = some ds := by
  induction ds with
  | nil => rfl
  | cons d ds ih => simp [decodeDetections, decode_encode_detection, ih]

/-- C9: serializing an Attribution to the documented JSON shape omits each
optional field exactly when it is zero-valued (no null/zero placeholders),
and deserializing the serialized form recovers the original Attribution. -/
theorem c9_json_roundtrip :
    (∀ a : Attribution, decodeAttribution (encodeAttribution a) = some a) ∧
    (∀ d : Detection,
      ((jGet (encodeDetectionFields d) "files_matched").isSome ↔ d.filesMatched ≠ []) ∧
      ((jGet (encodeDetectionFields d) "model").isSome ↔ d.model ≠ "") ∧
      ((jGet (encodeDetectionFields d) "token_usage").isSome ↔ d.tokenUsage ≠ 0) ∧
      ((jGet (encodeDetectionFields d) "session_duration_sec").isSome ↔
        d.sessionDurationSec ≠ 0)) := by
  constructor
  · intro a
    rcases a with ⟨sha, author, repo, ts, dets⟩
    simp [encodeAttribution, decodeAttribution, jGet, decode_encode_detections]
  · intro d
    rcases d with ⟨tool, confidence, method, fm, fc, ai, model, tk, dur⟩
    refine ⟨?_, ?_, ?_, ?_⟩ <;>
      (simp only [encodeDetectionFields]
       by_cases h1 : fm.isEmpty <;> by_cases h2 : model = "" <;>
         by_cases h3 : tk = 0 <;> by_cases h4 : dur = 0 <;>
         simp_all [jGet, List.isEmpty_iff])


/-! ## C4: Cursor write-tool rows -/

/-- Membership in the insert-if-absent set representation. -/
theorem mem_insertIfAbsent {f x : String} {l : List String} :
    f ∈ insertIfAbsent l x ↔ f ∈ l ∨ f = x := by
  simp only [insertIfAbsent, List.contains, List.elem_iff]
  by_cases h : x ∈ l
  · simp only [h, if_true]
    constructor
    · exact Or.inl
    · rintro (hf | rfl) <;> assumption
  · simp [h]

/-- One Cursor row adds its token counters unconditionally. -/
theorem cursorBubbleStep_tokens (info : SessionInfo) (v : Option CursorBubble) :
    (cursorBubbleStep info v).totalTokens = info.totalTokens + cursorRowTokens v := by
  rcases v with _ | ⟨bt, tfd, tc⟩
  · simp [cursorBubbleStep, cursorRowTokens]
  · rcases tfd with _ | tf <;> rcases tc with _ | tc <;>
      simp only [cursorBubbleStep, cursorRowTokens] <;>
      (try split_ifs) <;> simp [add_assoc]

/-- One Cursor row updates the file set through `cursorKeptPath`. -/
theorem cursorBubbleStep_files (info : SessionInfo) (v : Option CursorBubble) :
    (cursorBubbleStep info v).filesWritten =
      (match cursorKeptPath v with
       | some f => insertIfAbsent info.filesWritten f
       | none => info.filesWritten) := by
  rcases v with _ | ⟨bt, tfd, tc⟩
  · simp [cursorBubbleStep, cursorKeptPath]
  · rcases tfd with _ | tf <;> rcases tc with _ | tc <;>
      simp only [cursorBubbleStep, cursorKeptPath] <;>
      (try split_ifs) <;> simp_all

/-- Token total of the Cursor value loop. -/
theorem foldl_cursorBubbleStep_tokens (rows : List (Option CursorBubble))
    (info : SessionInfo) :
    ((rows.foldl cursorBubbleStep info).totalTokens) =
      info.totalTokens + (rows.map cursorRowTokens).sum := by
  induction rows generalizing info with
  | nil => simp
  | cons v rows ih =>
    simp only [List.foldl_cons, List.map_cons, List.sum_cons, ih,
      cursorBubbleStep_tokens, add_assoc]

/-- File membership of the Cursor value loop. -/
theorem foldl_cursorBubbleStep_files (rows : List (Option CursorBubble))
    (info : SessionInfo) (f : String) :
    f ∈ (rows.foldl cursorBubbleStep info).filesWritten ↔
      f ∈ info.filesWritten ∨ ∃ v ∈ rows, cursorKeptPath v = some f := by
  induction rows generalizing info with
  | nil => simp
  | cons v rows ih =>
    simp only [List.foldl_cons, ih, List.mem_cons]
    cases hk : cursorKeptPath v with
    | none =>
      simp only [cursorBubbleStep_files, hk]
      constructor
      · rintro (h | ⟨w, hw, hkw⟩)
        · exact Or.inl h
        · exact Or.inr ⟨w, Or.inr hw, hkw⟩
      · rintro (h | ⟨w, (rfl | hw), hkw⟩)
        · exact Or.inl h
        · rw [hk] at hkw; cases hkw
        · exact Or.inr ⟨w, hw, hkw⟩
    | some g =>
      simp only [cursorBubbleStep_files, hk, mem_insertIfAbsent]
      constructor
      · rintro ((h | rfl) | ⟨w, hw, hkw⟩)
        · exact Or.inl h
        · exact Or.inr ⟨v, Or.inl rfl, hk⟩
        · exact Or.inr ⟨w, Or.inr hw, hkw⟩
      · rintro (h | ⟨w, (rfl | hw), hkw⟩)
        · exact Or.inl (Or.inl h)
        · rw [hk] at hkw
          exact Or.inl (Or.inr (Option.some.inj hkw).symm)
        · exact Or.inr ⟨w, hw, hkw⟩

/-- The composer-id loop of `parseCursorBubbles` equals the value loop
over the concatenated query rows. -/
theorem cursorIdFold_eq (rowsFor : String → Except String (List (Option CursorBubble)))
    (ids : List String) (info : SessionInfo) :
    ids.foldl (fun info composerId =>
      match rowsFor composerId with
      | .error _ => info
      | .ok values => values.foldl cursorBubbleStep info) info =
    (cursorQueryRows rowsFor ids).foldl cursorBubbleStep info := by
  induction ids generalizing info with
  | nil => rfl
  | cons cid rest ih =>
    simp only [List.foldl_cons, cursorQueryRows]
    cases h : rowsFor cid with
    | error e => simp [h, ih]
    | ok values => simp [h, ih, List.foldl_append]

/-- C4 counterexample: two completed write-tool rows, one accepted with
100 tokens and one rejected with 7 tokens — the rejected row contributes
no file, yet its tokens are counted: the reader reports 107 total tokens,
while the sum over the kept rows is 100. -/
theorem c4_counterexample :
    parseCursorBubbles true (.ok ["cursorDiskKV"])
      (fun _ => .ok [cursorRowAccepted, cursorRowRejected]) ["c1"] =
      .ok (some { tool := ToolCursor, filesWritten := ["a.go"], model := "",
                  totalTokens := 107, sessionDurationSec := 0 }) ∧
    (([cursorRowAccepted, cursorRowRejected].filter
        (fun v => (cursorKeptPath v).isSome)).map cursorRowTokens).sum = 100 ∧
    (107 : Int) ≠ 100 :=
  ⟨by decide, by decide, by decide⟩

/-- C4 (amended): in the structured-store (Cursor) reader a row
contributes a file path exactly when it parses to a write-tool call with
status `"completed"` and a user decision other than `"rejected"` (a
missing decision is the empty string, hence accepted) and a non-empty
extracted path; the reader's token total, however, sums the token
counters of *every* row returned by the write-tool query — including
rejected, cancelled and non-tool rows — not only the kept rows. -/
theorem c4_cursor_bubbles_spec (tableCheck : Except String (List String))
    (rowsFor : String → Except String (List (Option CursorBubble)))
    (ids : List String) (info : SessionInfo)
    (h : parseCursorBubbles true tableCheck rowsFor ids = .ok (some info)) :
    info.totalTokens = ((cursorQueryRows rowsFor ids).map cursorRowTokens).sum ∧
    (∀ f, f ∈ info.filesWritten ↔
      ∃ v ∈ cursorQueryRows rowsFor ids, cursorKeptPath v = some f) ∧
    (∀ (v : Option CursorBubble) (bubble : CursorBubble) (tf : CursorToolFormer)
      (f : String), v = some bubble → bubble.toolFormerData = some tf →
      (cursorKeptPath v = some f ↔
        cursorWriteTools tf.name = true ∧ tf.status = "completed" ∧
        tf.userDecision ≠ "rejected" ∧ extractCursorFilePath tf = f ∧ f ≠ "")) := by
  have hinfo : info = (cursorQueryRows rowsFor ids).foldl cursorBubbleStep
      { tool := ToolCursor, filesWritten := [], model := "", totalTokens := 0,
        sessionDurationSec := 0 } := by
    simp only [parseCursorBubbles, Bool.not_true, not_true_eq_false] at h
    rw [if_neg not_false] at h
    cases tableCheck with
    | error e => cases h
    | ok vs =>
      cases vs with
      | nil => cases h
      | cons v vs =>
        rw [cursorIdFold_eq] at h
        by_cases hempty : ((cursorQueryRows rowsFor ids).foldl cursorBubbleStep
            { tool := ToolCursor, filesWritten := [], model := "", totalTokens := 0,
              sessionDurationSec := 0 }).filesWritten = []
        · rw [if_pos hempty] at h; cases h
        · rw [if_neg hempty] at h
          exact (Option.some.inj (Except.ok.inj h)).symm
  refine ⟨?_, ?_, ?_⟩
  · rw [hinfo, foldl_cursorBubbleStep_tokens]
    simp
  · intro f
    rw [hinfo, foldl_cursorBubbleStep_files]
    simp
  · rintro v bubble tf f rfl htf
    simp only [cursorKeptPath, htf]
    constructor
    · intro hk
      by_cases hcond : cursorWriteTools tf.name = true ∧ tf.status = "completed" ∧
          tf.userDecision ≠ "rejected" ∧ extractCursorFilePath tf ≠ ""
      · rcases hcond with ⟨hw, hs, hu, hne⟩
        rw [if_pos ⟨hw, hs, hu, hne⟩] at hk
        have hf := Option.some.inj hk
        exact ⟨hw, hs, hu, hf, hf ▸ hne⟩
      · rw [if_neg hcond] at hk
        cases hk
    · rintro ⟨hw, hs, hu, rfl, hne⟩
      rw [if_pos ⟨hw, hs, hu, hne⟩]

/-- Witness for C4 at a concrete single kept row with missing decision. -/
theorem c4_cursor_bubbles_spec_witness :
    parseCursorBubbles true (.ok ["cursorDiskKV"])
      (fun _ => .ok [cursorRowNoDecision]) ["c1"] =
      .ok (some { tool := ToolCursor, filesWritten := ["a.go"], model := "",
                  totalTokens := 8, sessionDurationSec := 0 }) ∧
    ({ tool := ToolCursor, filesWritten := ["a.go"], model := "",
       totalTokens := 8, sessionDurationSec := 0 } : SessionInfo).totalTokens =
      ((cursorQueryRows (fun _ => .ok [cursorRowNoDecision]) ["c1"]).map
        cursorRowTokens).sum := by
  refine ⟨by decide, ?_⟩
  exact (c4_cursor_bubbles_spec (.ok ["cursorDiskKV"])
    (fun _ => .ok [cursorRowNoDecision]) ["c1"]
    { tool := ToolCursor, filesWritten := ["a.go"], model := "",
      totalTokens := 8, sessionDurationSec := 0 } (by decide)).1

/-! ## C8: Copilot multi-file merge -/

/-- Folding insert-if-absent unions the two sets. -/
theorem mem_foldl_insertIfAbsent (xs : List String) (l : List String) (f : String) :
    f ∈ xs.foldl insertIfAbsent l ↔ f ∈ l ∨ f ∈ xs := by
  induction xs generalizing l with
  | nil => simp
  | cons x xs ih =>
    simp only [List.foldl_cons, ih, mem_insertIfAbsent, List.mem_cons]
    constructor
    · rintro ((h | rfl) | h)
      · exact Or.inl h
      · exact Or.inr (Or.inl rfl)
      · exact Or.inr (Or.inr h)
    · rintro (h | (rfl | h))
      · exact Or.inl (Or.inl h)
      · exact Or.inl (Or.inr rfl)
      · exact Or.inr h

/-- File membership of the Copilot merge fold. -/
theorem copilot_fold_files (repoRoot : String)
    (sessions : List (Except String (Option CopilotSession))) (m : SessionInfo)
    (f : String) :
    f ∈ (sessions.foldl (copilotMergeStep repoRoot) m).filesWritten ↔
      f ∈ m.filesWritten ∨ ∃ s ∈ copilotInfos repoRoot sessions, f ∈ s.filesWritten := by
  induction sessions generalizing m with
  | nil => simp [copilotInfos]
  | cons file rest ih =>
    simp only [List.foldl_cons, ih, copilotInfos, List.filterMap_cons]
    cases hp : parseCopilotSession repoRoot file with
    | error e => simp [copilotMergeStep, hp, copilotInfos]
    | ok o =>
      cases o with
      | none => simp [copilotMergeStep, hp, copilotInfos]
      | some s =>
        simp only [copilotMergeStep, hp, mem_foldl_insertIfAbsent, copilotInfos,
          List.mem_cons]
        constructor
        · rintro ((h | h) | ⟨w, hw, hfw⟩)
          · exact Or.inl h
          · exact Or.inr ⟨s, Or.inl rfl, h⟩
          · exact Or.inr ⟨w, Or.inr hw, hfw⟩
        · rintro (h | ⟨w, (rfl | hw), hfw⟩)
          · exact Or.inl (Or.inl h)
          · exact Or.inl (Or.inr hfw)
          · exact Or.inr ⟨w, hw, hfw⟩

/-- Model selection of the Copilot merge fold. -/
theorem copilot_fold_model (repoRoot : String)
    (sessions : List (Except String (Option CopilotSession))) (m : SessionInfo) :
    (sessions.foldl (copilotMergeStep repoRoot) m).model =
      (copilotInfos repoRoot sessions).foldl
        (fun acc s => if s.model ≠ "" then s.model else acc) m.model := by
  induction sessions generalizing m with
  | nil => simp [copilotInfos]
  | cons file rest ih =>
    simp only [List.foldl_cons, ih, copilotInfos, List.filterMap_cons]
    cases hp : parseCopilotSession repoRoot file with
    | error e => simp [copilotMergeStep, hp, copilotInfos]
    | ok o =>
      cases o with
      | none => simp [copilotMergeStep, hp, copilotInfos]
      | some s => simp [copilotMergeStep, hp, copilotInfos]

/-- Duration selection of the Copilot merge fold. -/
theorem copilot_fold_dur (repoRoot : String)
    (sessions : List (Except String (Option CopilotSession))) (m : SessionInfo) :
    (sessions.foldl (copilotMergeStep repoRoot) m).sessionDurationSec =
      (copilotInfos repoRoot sessions).foldl
        (fun acc s => if s.sessionDurationSec > acc then s.sessionDurationSec else acc)
        m.sessionDurationSec := by
  induction sessions generalizing m with
  | nil => simp [copilotInfos]
  | cons file rest ih =>
    simp only [List.foldl_cons, ih, copilotInfos, List.filterMap_cons]
    cases hp : parseCopilotSession repoRoot file with
    | error e => simp [copilotMergeStep, hp, copilotInfos]
    | ok o =>
      cases o with
      | none => simp [copilotMergeStep, hp, copilotInfos]
      | some s => simp [copilotMergeStep, hp, copilotInfos]

/-- C8: when the workspace matches and session files exist, the returned
SessionInfo is the merge of the per-file results — union of file sets,
last non-empty model wins, longest duration wins — and a malformed
session file (unmarshal failure, `.ok none`) contributes nothing while
every sibling still contributes. -/
theorem c8_copilot_merge (repoRoot : String)
    (sessions : List (Except String (Option CopilotSession))) (info : SessionInfo)
    (h : detectCopilot repoRoot true sessions = .ok (some info)) :
    (∀ f, f ∈ info.filesWritten ↔
      ∃ s ∈ copilotInfos repoRoot sessions, f ∈ s.filesWritten) ∧
    info.model = lastNonEmptyModel (copilotInfos repoRoot sessions) ∧
    info.sessionDurationSec = maxDuration (copilotInfos repoRoot sessions) ∧
    (∀ pre post, detectCopilot repoRoot true (pre ++ .ok none :: post) =
      detectCopilot repoRoot true (pre ++ post)) := by
  have hstepnone : ∀ m : SessionInfo, copilotMergeStep repoRoot m (.ok none) = m := by
    intro m; rfl
  have hinfo : info = sessions.foldl (copilotMergeStep repoRoot)
      { tool := ToolCopilot, filesWritten := [], model := "", totalTokens := 0,
        sessionDurationSec := 0 } := by
    simp only [detectCopilot, Bool.not_true, not_true_eq_false] at h
    rw [if_neg not_false] at h
    cases sessions with
    | nil => cases h
    | cons x xs =>
      simp only [List.length_cons] at h
      rw [if_neg (by omega)] at h
      by_cases hempty : ((x :: xs).foldl (copilotMergeStep repoRoot)
          { tool := ToolCopilot, filesWritten := [], model := "", totalTokens := 0,
            sessionDurationSec := 0 }).filesWritten = []
      · rw [if_pos hempty] at h; cases h
      · rw [if_neg hempty] at h
        exact (Option.some.inj (Except.ok.inj h)).symm
  refine ⟨?_, ?_, ?_, ?_⟩
  · intro f
    rw [hinfo, copilot_fold_files]
    simp
  · rw [hinfo, copilot_fold_model, lastNonEmptyModel]
  · rw [hinfo, copilot_fold_dur, maxDuration]
  · intro pre post
    simp only [detectCopilot, Bool.not_true, not_true_eq_false]
    rw [if_neg not_false, if_neg not_false]
    have hfold : ∀ m : SessionInfo, (pre ++ .ok none :: post).foldl
        (copilotMergeStep repoRoot) m = (pre ++ post).foldl (copilotMergeStep repoRoot) m := by
      intro m
      rw [List.foldl_append, List.foldl_append, List.foldl_cons, hstepnone]
    by_cases hpp : pre ++ post = []
    · rcases List.append_eq_nil.mp hpp with ⟨rfl, rfl⟩
      simp [hstepnone]
    · have h1 : ¬ (pre ++ Except.ok none :: post).length = 0 := by simp
      have h2 : ¬ (pre ++ post).length = 0 := by
        simpa [List.length_eq_zero] using hpp
      rw [if_neg h1, if_neg h2, hfold]

/-- Witness for C8 at one concrete session file. -/
theorem c8_copilot_merge_witness :
    ({ tool := ToolCopilot, filesWritten := ["a.go"], model := "m1", totalTokens := 0,
       sessionDurationSec := 0 } : SessionInfo).model =
      lastNonEmptyModel (copilotInfos "r" [copilotSessionFix]) :=
  (c8_copilot_merge "r" [copilotSessionFix]
    { tool := ToolCopilot, filesWritten := ["a.go"], model := "m1", totalTokens := 0,
      sessionDurationSec := 0 } (by decide)).2.1

/-! ## C3: error-propagation policy of `Detect` -/

/-- C3: `Detect` hard-fails exactly when committed-file resolution fails
(wrapping that error); with a resolved list it always returns `ok` — no
reader, process-detector or optional-git failure surfaces — returning
absence for an empty commit and when every strategy yields zero
Detections. -/
theorem c3_detect_error_policy (env : DetectEnv) (timestamp : String) :
    (∀ e, getCommittedFiles env.diffHead env.diffEmptyTree = .error e →
      Detect env timestamp = .error ("getting committed files: " ++ e)) ∧
    (∀ cf, getCommittedFiles env.diffHead env.diffEmptyTree = .ok cf →
      ∃ r, Detect env timestamp = .ok r) ∧
    (getCommittedFiles env.diffHead env.diffEmptyTree = .ok [] →
      Detect env timestamp = .ok none) ∧
    (∀ cf, getCommittedFiles env.diffHead env.diffEmptyTree = .ok cf →
      detectionsFor env cf (orEmpty env.msgRes) = [] →
      Detect env timestamp = .ok none) := by
  refine ⟨?_, ?_, ?_, ?_⟩
  · intro e he
    simp [Detect, he]
  · intro cf hcf
    simp only [Detect, hcf]
    by_cases h0 : cf.length = 0
    · rw [if_pos h0]; exact ⟨none, rfl⟩
    · rw [if_neg h0]
      by_cases hds : (detectionsFor env cf (orEmpty env.msgRes)).length = 0
      · rw [if_pos hds]; exact ⟨none, rfl⟩
      · rw [if_neg hds]; exact ⟨_, rfl⟩
  · intro hcf
    simp [Detect, hcf]
  · intro cf hcf hds
    simp only [Detect, hcf]
    by_cases h0 : cf.length = 0
    · rw [if_pos h0]
    · rw [if_neg h0, if_pos (by rw [hds]; rfl)]

/-- Witness for C3: a failing resolution propagates the wrapped error; a
no-change commit with every reader failing still returns clean absence. -/
theorem c3_detect_error_policy_witness :
    Detect c3EnvError "T" = .error ("getting committed files: " ++ "boom") ∧
    Detect c3EnvQuiet "T" = .ok none :=
  ⟨(c3_detect_error_policy c3EnvError "T").1 "boom" (by decide),
   (c3_detect_error_policy c3EnvQuiet "T").2.2.1 (by decide)⟩

/-! ## C7: determinism of `Detect` -/

/-- C7 counterexample: two invocations against the same commit, unchanged
session stores and an unchanged process table (both iteration orders are
permutations of the `processNames` map, which Go randomizes) produce
structurally different Attributions even after blanking the timestamp:
the process-pass Detections come out in a different order. -/
theorem c7_counterexample :
    c7EnvB = { c7EnvA with procOrder := processNames.reverse } ∧
    c7EnvA.procOrder.Perm processNames ∧
    c7EnvB.procOrder.Perm processNames ∧
    stripTimestamp (Detect c7EnvA "T") ≠ stripTimestamp (Detect c7EnvB "T") :=
  ⟨rfl, by decide, by decide, by decide⟩

/-- C7 (amended): `Detect` is a pure function of the commit, the local
stores' reader outcomes, the process table *and* the randomized map
iteration orders: with those equal, two invocations differing only in the
clock produce identical Attributions apart from the timestamp field. -/
theorem c7_determinism (env : DetectEnv) (t1 t2 : String) :
    stripTimestamp (Detect env t1) = stripTimestamp (Detect env t2) := by
  cases hg : getCommittedFiles env.diffHead env.diffEmptyTree with
  | error e => simp [Detect, hg]
  | ok cf =>
    simp only [Detect, hg]
    by_cases h0 : cf.length = 0
    · rw [if_pos h0, if_pos h0]
    · rw [if_neg h0, if_neg h0]
      by_cases hds : (detectionsFor env cf (orEmpty env.msgRes)).length = 0
      · rw [if_pos hds, if_pos hds]
      · rw [if_neg hds, if_neg hds]
        simp [stripTimestamp]

/-! ## C2: each tool appears in at most one Detection -/

/-- A file-match block pins the Detection's tool. -/
theorem fileMatchCore_tool {t : Tool} {cf : List String} {s : SessionInfo} {m : String}
    {tk dur : Int} {d : Detection} (h : fileMatchCore t cf s m tk dur = some d) :
    d.tool = t := by
  rw [fileMatchCore_eq_some t cf s m tk dur d h]

/-- Tools contributed by an optional Detection with a fixed tool. -/
theorem opt_tool_sublist (o : Option Detection) (t : Tool)
    (h : ∀ d, o = some d → d.tool = t) :
    List.Sublist (o.toList.map (fun d => d.tool)) [t] := by
  cases o with
  | none => exact List.nil_sublist _
  | some d =>
    simp only [Option.toList_some, List.map_cons, List.map_nil, h d rfl]
    exact List.Sublist.refl _

/-- The five stage-2 blocks contribute pairwise distinct tools. -/
theorem stage2_tools_nodup (env : DetectEnv) (cf : List String) :
    (((claudeBlock env.claudeRes cf).toList ++ (aiderBlock env.aiderRes cf).toList ++
      (codexBlock env.codexRes cf).toList ++ (copilotBlock env.copilotRes cf).toList ++
      (cursorBlock env.cursorRes cf).toList).map (fun d => d.tool)).Nodup := by
  have hc : ∀ d, claudeBlock env.claudeRes cf = some d → d.tool = ToolClaudeCode := by
    intro d h
    cases hres : env.claudeRes with
    | error e => rw [hres] at h; cases h
    | ok o =>
      cases o with
      | none => rw [hres] at h; cases h
      | some s =>
        rw [hres] at h
        exact fileMatchCore_tool h
  have ha : ∀ d, aiderBlock env.aiderRes cf = some d → d.tool = ToolAider := by
    intro d h
    cases hres : env.aiderRes with
    | error e => rw [hres] at h; cases h
    | ok o =>
      cases o with
      | none => rw [hres] at h; cases h
      | some s =>
        rw [hres] at h
        exact fileMatchCore_tool h
  have hx : ∀ d, codexBlock env.codexRes cf = some d → d.tool = ToolCodex := by
    intro d h
    cases hres : env.codexRes with
    | error e => rw [hres] at h; cases h
    | ok o =>
      cases o with
      | none => rw [hres] at h; cases h
      | some s =>
        rw [hres] at h
        exact fileMatchCore_tool h
  have hp : ∀ d, copilotBlock env.copilotRes cf = some d → d.tool = ToolCopilot := by
    intro d h
    cases hres : env.copilotRes with
    | error e => rw [hres] at h; cases h
    | ok o =>
      cases o with
      | none => rw [hres] at h; cases h
      | some s =>
        rw [hres] at h
        exact fileMatchCore_tool h
  have hu : ∀ d, cursorBlock env.cursorRes cf = some d → d.tool = ToolCursor := by
    intro d h
    cases hres : env.cursorRes with
    | error e => rw [hres] at h; cases h
    | ok o =>
      cases o with
      | none => rw [hres] at h; cases h
      | some s =>
        rw [hres] at h
        exact fileMatchCore_tool h
  have hsub : List.Sublist (((claudeBlock env.claudeRes cf).toList ++
      (aiderBlock env.aiderRes cf).toList ++ (codexBlock env.codexRes cf).toList ++
      (copilotBlock env.copilotRes cf).toList ++ (cursorBlock env.cursorRes cf).toList).map
        (fun d => d.tool))
      ([ToolClaudeCode] ++ ([ToolAider] ++ ([ToolCodex] ++ ([ToolCopilot] ++ [ToolCursor])))) := by
    simp only [List.map_append, List.append_assoc]
    exact List.Sublist.append (opt_tool_sublist _ _ hc)
      (List.Sublist.append (opt_tool_sublist _ _ ha)
        (List.Sublist.append (opt_tool_sublist _ _ hx)
          (List.Sublist.append (opt_tool_sublist _ _ hp) (opt_tool_sublist _ _ hu))))
  exact List.Nodup.sublist hsub (by decide)

/-- The process loop yields pairwise distinct tools, none already seen. -/
theorem procLoop_spec (running : List String) :
    ∀ (order : List (String × Tool)) (seen : List Tool),
      (procLoop running order seen).Nodup ∧
      ∀ t ∈ procLoop running order seen, t ∉ seen := by
  intro order
  induction order with
  | nil =>
    intro seen
    exact ⟨List.nodup_nil, by simp [procLoop]⟩
  | cons p rest ih =>
    intro seen
    rcases p with ⟨name, tool⟩
    simp only [procLoop]
    by_cases h1 : seen.contains tool = true
    · rw [if_pos h1]
      exact ih seen
    · rw [if_neg h1]
      by_cases h2 : running.contains name = true
      · rw [if_pos h2]
        obtain ⟨ihn, ihs⟩ := ih (tool :: seen)
        have htool_notin : tool ∉ seen := by
          intro hmem
          exact h1 (by simpa [List.contains, List.elem_iff] using hmem)
        refine ⟨List.nodup_cons.mpr ⟨fun hmem => ihs tool hmem (List.mem_cons_self _ _),
          ihn⟩, ?_⟩
        intro t ht
        rcases List.mem_cons.mp ht with rfl | ht2
        · exact htool_notin
        · intro hts
          exact ihs t ht2 (List.mem_cons_of_mem _ hts)
      · rw [if_neg h2]
        exact ih seen

/-- First-wins deduplication yields pairwise distinct tools. -/
theorem dedupFirst_spec :
    ∀ (ts seen : List Tool),
      (dedupFirst ts seen).Nodup ∧ ∀ t ∈ dedupFirst ts seen, t ∉ seen := by
  intro ts
  induction ts with
  | nil =>
    intro seen
    exact ⟨List.nodup_nil, by simp [dedupFirst]⟩
  | cons t rest ih =>
    intro seen
    simp only [dedupFirst]
    by_cases h1 : seen.contains t = true
    · rw [if_pos h1]
      exact ih seen
    · rw [if_neg h1]
      obtain ⟨ihn, ihs⟩ := ih (t :: seen)
      have ht_notin : t ∉ seen := by
        intro hmem
        exact h1 (by simpa [List.contains, List.elem_iff] using hmem)
      refine ⟨List.nodup_cons.mpr ⟨fun hmem => ihs t hmem (List.mem_cons_self _ _), ihn⟩, ?_⟩
      intro w hw
      rcases List.mem_cons.mp hw with rfl | hw2
      · exact ht_notin
      · intro hws
        exact ihs w hw2 (List.mem_cons_of_mem _ hws)

/-- Tools of the stage-3 Detections: the detected processes not claimed
by file match, in order. -/
theorem stage3_tools (ts : List Tool) (claimed : List Tool) (n : Nat) :
    ((ts.filterMap (fun tool => if claimed.contains tool then none
        else some (procDetection tool n))).map (fun d => d.tool)) =
      ts.filter (fun t => ! claimed.contains t) := by
  induction ts with
  | nil => rfl
  | cons t ts ih =>
    by_cases h : claimed.contains t = true
    · rw [List.filterMap_cons, if_pos h, List.filter_cons, if_neg (by rw [h]; simp)]
      exact ih
    · have h2 : claimed.contains t = false := by
        revert h
        cases claimed.contains t <;> simp
      rw [List.filterMap_cons, if_neg h, List.filter_cons, if_pos (by rw [h2]; rfl),
        List.map_cons, ih]
      rfl

/-- Tools of the stage-4 Detections: the trailer tools not yet claimed. -/
theorem stage4_tools (ds : List Detection) (claimed : List Tool) (n : Nat) :
    ((ds.filterMap (fun d => if claimed.contains d.tool then none
        else some { d with filesCommitted := n })).map (fun d => d.tool)) =
      (ds.map (fun d => d.tool)).filter (fun t => ! claimed.contains t) := by
  induction ds with
  | nil => rfl
  | cons d ds ih =>
    rw [List.map_cons, List.filter_cons]
    by_cases h : claimed.contains d.tool = true
    · rw [List.filterMap_cons, if_pos h, if_neg (by rw [h]; simp)]
      exact ih
    · have h2 : claimed.contains d.tool = false := by
        revert h
        cases claimed.contains d.tool <;> simp
      rw [List.filterMap_cons, if_neg h, if_pos (by rw [h2]; rfl), List.map_cons, ih]

/-- Trailer Detections carry pairwise distinct tools. -/
theorem detectTrailers_tools_nodup (msg : String) :
    ((detectTrailers msg).map (fun d => d.tool)).Nodup := by
  simp only [detectTrailers, List.map_map]
  have heq : ∀ l : List Tool,
      l.map ((fun d : Detection => d.tool) ∘
        (fun t => ({ tool := t, confidence := ConfidenceMedium,
                     method := MethodCoAuthorTrailer, filesMatched := [],
                     filesCommitted := 0, aiFiles := 0, model := "", tokenUsage := 0,
                     sessionDurationSec := 0 } : Detection))) = l := by
    intro l
    induction l with
    | nil => rfl
    | cons x xs ih => simp only [List.map_cons, ih, Function.comp]
  rw [heq]
  exact (dedupFirst_spec _ []).1

/-- A member of a list is contained in it (Boolean form). -/
theorem contains_of_mem {t : Tool} {l : List Tool} (h : t ∈ l) : l.contains t = true := by
  simpa [List.contains, List.elem_iff] using h

/-- A stage-3 Detection's tool was not claimed by stage 2. -/
theorem mem_stage3_not_claimed {claimed : List Tool} {procs : List Tool} {n : Nat}
    {d : Detection}
    (hd : d ∈ procs.filterMap (fun tool => if claimed.contains tool then none
      else some (procDetection tool n))) :
    claimed.contains d.tool = false := by
  rcases List.mem_filterMap.mp hd with ⟨t, _, hf⟩
  by_cases h : claimed.contains t = true
  · rw [if_pos h] at hf
    cases hf
  · rw [if_neg h] at hf
    have hdt : d.tool = t := by
      rw [← Option.some.inj hf]
      rfl
    rw [hdt]
    revert h
    cases claimed.contains t <;> simp

/-- A stage-4 Detection's tool was not claimed by earlier stages. -/
theorem mem_stage4_not_claimed {claimed : List Tool} {ds : List Detection} {n : Nat}
    {d : Detection}
    (hd : d ∈ ds.filterMap (fun d => if claimed.contains d.tool then none
      else some { d with filesCommitted := n })) :
    claimed.contains d.tool = false := by
  rcases List.mem_filterMap.mp hd with ⟨w, _, hf⟩
  by_cases h : claimed.contains w.tool = true
  · rw [if_pos h] at hf
    cases hf
  · rw [if_neg h] at hf
    have hdt : d.tool = w.tool := by
      rw [← Option.some.inj hf]
    rw [hdt]
    revert h
    cases claimed.contains w.tool <;> simp

/-- Nodup assembly for the three-stage Detection list: stages internally
distinct, later stages excluding already-claimed tools. -/
theorem tools_nodup_assembly (s2 s3 s4 : List Detection)
    (h2 : (s2.map (fun d => d.tool)).Nodup)
    (h3 : (s3.map (fun d => d.tool)).Nodup)
    (h3excl : ∀ d ∈ s3, (s2.map (fun d => d.tool)).contains d.tool = false)
    (h4 : (s4.map (fun d => d.tool)).Nodup)
    (h4excl : ∀ d ∈ s4, ((s2 ++ s3).map (fun d => d.tool)).contains d.tool = false) :
    (((s2 ++ s3) ++ s4).map (fun d => d.tool)).Nodup := by
  rw [List.map_append, List.map_append, List.nodup_append, List.nodup_append]
  have hdisj23 : (s2.map (fun d => d.tool)).Disjoint (s3.map (fun d => d.tool)) := by
    intro t ht2 ht3
    rcases List.mem_map.mp ht3 with ⟨d, hd, rfl⟩
    have := h3excl d hd
    rw [contains_of_mem ht2] at this
    cases this
  refine ⟨⟨h2, h3, hdisj23⟩, h4, ?_⟩
  intro t ht ht4
  rcases List.mem_map.mp ht4 with ⟨d, hd, rfl⟩
  have hx := h4excl d hd
  have hmem : d.tool ∈ (s2 ++ s3).map (fun d => d.tool) := by
    rw [List.map_append]
    exact ht
  rw [contains_of_mem hmem] at hx
  cases hx

/-- Tools are pairwise distinct across the whole assembled Detection
list. -/
theorem detectionsFor_tools_nodup (env : DetectEnv) (cf : List String) (msg : String) :
    ((detectionsFor env cf msg).map (fun d => d.tool)).Nodup := by
  simp only [detectionsFor]
  apply tools_nodup_assembly
  · exact stage2_tools_nodup env cf
  · rw [stage3_tools]
    exact List.Nodup.filter _ (procLoop_spec env.running env.procOrder []).1
  · intro d hd
    exact mem_stage3_not_claimed hd
  · rw [stage4_tools]
    exact List.Nodup.filter _ (detectTrailers_tools_nodup msg)
  · intro d hd
    exact mem_stage4_not_claimed hd

/-- C2: in every Attribution returned by `Detect`, each tool identifier
appears in at most one Detection — a stage-2 file-match claim excludes
stage-3/4 Detections for that tool, and a stage-3 process Detection
excludes a stage-4 trailer Detection. -/
theorem c2_tool_uniqueness (env : DetectEnv) (timestamp : String) (attr : Attribution)
    (h : Detect env timestamp = .ok (some attr)) :
    (attr.detections.map (fun d => d.tool)).Nodup := by
  cases hg : getCommittedFiles env.diffHead env.diffEmptyTree with
  | error e =>
    rw [Detect, hg] at h
    cases h
  | ok cf =>
    rw [Detect, hg] at h
    simp only at h
    by_cases h0 : cf.length = 0
    · rw [if_pos h0] at h
      cases h
    · rw [if_neg h0] at h
      by_cases hds : (detectionsFor env cf (orEmpty env.msgRes)).length = 0
      · rw [if_pos hds] at h
        cases h
      · rw [if_neg hds] at h
        rw [← Option.some.inj (Except.ok.inj h)]
        exact detectionsFor_tools_nodup env cf (orEmpty env.msgRes)

/-- Witness for C2: a concrete environment yielding one process
Detection. -/
theorem c2_tool_uniqueness_witness :
    ((({ commitSHA := "", commitAuthor := "", repo := "", timestamp := "T",
         detections := [procDetection ToolAider 1] } : Attribution).detections.map
      (fun d => d.tool)).Nodup) :=
  c2_tool_uniqueness c2EnvProc "T"
    { commitSHA := "", commitAuthor := "", repo := "", timestamp := "T",
      detections := [procDetection ToolAider 1] } (by decide)
